import Mathlib

/-!
# Bolt debt service (`service/debt.go`)

A shallow embedding of the debt lifecycle code of `service/debt.go`:
the reaction dispatcher `HandleReactionAdded`, the ledger operations
`createDebt`, `addDebts`, `hostForOrderID`, `removeAllDebtsForOrder`,
`markDebtAsPaid`, the reminder `remindDebt`, the worker `DebtWorker`, and the
order-id pattern `groupFromMessageRe`.

The service talks to three collaborators through interfaces (debt store, user
store, event notifier).  Their calls are modelled by explicit state passing:
a `State` holds the rows of the debt store, the number of store calls made so
far, and the chronological trace of every collaborator call.  Which store
calls fail is decided by an oracle of the environment, indexed by the call
number, so that every failure pattern of the store is covered.  Lines written
with `log.Println` are not part of the model.
-/

namespace Bolt

/-! ## Data model -/

/-- Debt record of `debtDomain.Debt`, with the fields `debt.go` reads and
the ones `NewDebt` receives.  `Amount` is a `float64` in the source; it is
kept here as a number of hundredths. -/
structure Debt where
  ID : String
  BorrowerID : String
  LenderID : String
  OrderID : String
  InitiatedTransport : String
  MessageID : String
  Amount : Nat
deriving DecidableEq, Repr

/-- User profile of `userDomain.User`, with the fields `debt.go` reads. -/
structure User where
  ID : String
  FullName : String
  TransportID : String
  Timezone : String
deriving DecidableEq, Repr

/-- Inbound reaction event, `ReactionAddRequest`, with the fields
`HandleReactionAdded` reads. -/
structure ReactionAddRequest where
  Reaction : String
  MessageUserID : String
  MessageText : String
  FromUserID : String
  Channel : String
deriving DecidableEq, Repr

/-- Go `error` values produced in `debt.go`: a failure of the store, a failure
of the user store, the two outcomes of `regroup`, and `fmt.Errorf("ctx: %w", err)`. -/
inductive Error where
  | store : Error
  | userNotFound : Error
  | noMatchFound : Error
  | regroup : Error
  | wrap : String → Error → Error
deriving DecidableEq, Repr

/-- Wall-clock reading, as seen through `Hour()` and `Minute()` of `time.Time`. -/
structure Time where
  Hour : Nat
  Minute : Nat
deriving DecidableEq, Repr

/-- One message handed to the notifier: `informEvent(receiver, event, reactionKey, messageID)`. -/
structure Notification where
  receiver : String
  event : String
  reaction : String
  messageID : String
deriving DecidableEq, Repr

/-- Calls the service makes on its collaborators, with their outcome. -/
inductive Effect where
  | listDebts (orderID : String) (ok : Bool)
  | removeDebt (orderID debtID : String) (ok : Bool)
  | addDebt (debt : Debt) (ok : Bool)
  | getUser (id : String) (ok : Bool)
  | inform (n : Notification)
deriving DecidableEq, Repr

/-- The `Service` receiver together with the behaviour of its collaborators
during one call: `hasDebtStore` is `h.debtStore != nil`; the two reaction
constants are declared outside `debt.go` and are parameters; `GetUser` is the
user directory (`none` is a failed lookup); `storeFails n` tells whether the
`n`-th call on the debt store fails; `Now` is `time.Now()` and `NowIn tz` is
`time.LoadLocation(tz)` followed by `time.Now().In(tz)` (`none` when the zone
does not load). -/
structure Env where
  selfID : String
  hasDebtStore : Bool
  MarkAsPaidReaction : String
  HostRemoveDebts : String
  GetUser : String → Option User
  storeFails : Nat → Bool
  Now : Time
  NowIn : String → Option Time

/-- Observable state of the collaborators: rows of the debt store in insertion
order, number of store calls made so far, and the trace of collaborator calls. -/
structure State where
  debts : List Debt
  storeCalls : Nat
  trace : List Effect
deriving DecidableEq, Repr

/-- Record one collaborator call at the end of the trace. -/
def State.emit (s : State) (e : Effect) : State :=
  { s with trace := s.trace ++ [e] }

/-- Notifications contained in a trace, in sending order. -/
def notifications (t : List Effect) : List Notification :=
  t.filterMap fun e => match e with
    | Effect.inform n => some n
    | _ => none

/-- Debt ids removed successfully in a trace, in order. -/
def removals (t : List Effect) : List (String × String) :=
  t.filterMap fun e => match e with
    | Effect.removeDebt o d true => some (o, d)
    | _ => none

/-! ## Collaborators -/

/-- Rows of an order, in insertion order. -/
def debtsOfOrder (orderID : String) (rows : List Debt) : List Debt :=
  rows.filter fun d => d.OrderID = orderID

/-- Modelled from the spec: the debt store's `ListDebtsForOrderID` (the store
is behind an interface). It returns the order's debts in insertion order,
empty if none, or fails with a store error. -/
def ListDebtsForOrderID (env : Env) (orderID : String) (s : State) :
    Except Error (List Debt) × State :=
  if env.storeFails s.storeCalls then
    (.error Error.store,
      { s with storeCalls := s.storeCalls + 1,
               trace := s.trace ++ [Effect.listDebts orderID false] })
  else
    (.ok (debtsOfOrder orderID s.debts),
      { s with storeCalls := s.storeCalls + 1,
               trace := s.trace ++ [Effect.listDebts orderID true] })

/-- Modelled from the spec: the debt store's `RemoveDebtInOrderID` (the store
is behind an interface). It removes the debt with that id from the order, or
fails with a store error and leaves the rows as they were. -/
def RemoveDebtInOrderID (env : Env) (orderID debtID : String) (s : State) :
    Option Error × State :=
  if env.storeFails s.storeCalls then
    (some Error.store,
      { s with storeCalls := s.storeCalls + 1,
               trace := s.trace ++ [Effect.removeDebt orderID debtID false] })
  else
    (none,
      { debts := s.debts.filter fun d => ¬ (d.OrderID = orderID ∧ d.ID = debtID),
        storeCalls := s.storeCalls + 1,
        trace := s.trace ++ [Effect.removeDebt orderID debtID true] })

/-- Modelled from the spec: the user store's `GetUser` (behind an interface):
resolves a user id to a profile, or fails. -/
def GetUser (env : Env) (id : String) (s : State) : Except Error User × State :=
  match env.GetUser id with
  | some u => (.ok u, s.emit (Effect.getUser id true))
  | none => (.error Error.userNotFound, s.emit (Effect.getUser id false))

/-- Modelled from the spec: `informEvent` hands one message to the notifier:
receiver, text, reaction allowed on it, message it is threaded to. -/
def informEvent (receiver event reaction messageID : String) (s : State) : State :=
  s.emit (Effect.inform ⟨receiver, event, reaction, messageID⟩)

/-! ## Ledger operations -/

/-- Source `hostForOrderID`: the lender id of the first listed debt, the empty
string when the order has no debt, an error when listing fails. -/
def hostForOrderID (env : Env) (orderID : String) (s : State) :
    (String × Option Error) × State :=
  match ListDebtsForOrderID env orderID s with
  | (.error err, s1) => (("", some (Error.wrap "list debts" err)), s1)
  | (.ok debts, s1) =>
    match debts with
    | [] => (("", none), s1)
    | d0 :: _ => ((d0.LenderID, none), s1)

/-- The `for _, debt := range debts` loop of `removeAllDebtsForOrder`: remove
the listed debts one by one, return at the first removal that fails. -/
def removeAllLoop (env : Env) (orderID : String) :
    List Debt → State → Option Error × State
  | [], s => (none, s)
  | debt :: rest, s =>
    match RemoveDebtInOrderID env orderID debt.ID s with
    | (some err, s1) => (some (Error.wrap "remove debt" err), s1)
    | (none, s1) => removeAllLoop env orderID rest s1

/-- Source `removeAllDebtsForOrder`. -/
def removeAllDebtsForOrder (env : Env) (orderID reason : String) (s : State) :
    Option Error × State :=
  if env.hasDebtStore = false then (none, s)
  else
    match ListDebtsForOrderID env orderID s with
    | (.error err, s1) => (some (Error.wrap "list debts" err), s1)
    | (.ok debts, s1) =>
      match debts with
      | [] => (none, s1)
      | d0 :: _ =>
        let lender := d0.LenderID
        match removeAllLoop env orderID debts s1 with
        | (some err, s2) => (some err, s2)
        | (none, s2) =>
          (none, informEvent lender
            ("I removed all debts for order ID " ++ orderID ++ " because " ++ reason) "" "" s2)

/-- The `for _, debt := range debts` loop of `markDebtAsPaid`. -/
def markDebtAsPaidLoop (env : Env) (orderID reactedTransportID initialChannel : String) :
    List Debt → State → Option Error × State
  | [], s => (none, s)
  | debt :: rest, s =>
    match GetUser env debt.BorrowerID s with
    | (.error _, s1) =>
      markDebtAsPaidLoop env orderID reactedTransportID initialChannel rest s1
    | (.ok borrower, s1) =>
      if borrower.TransportID ≠ reactedTransportID then
        markDebtAsPaidLoop env orderID reactedTransportID initialChannel rest s1
      else
        match RemoveDebtInOrderID env orderID debt.ID s1 with
        | (some err, s2) => (some (Error.wrap "remove debt" err), s2)
        | (none, s2) =>
          let s3 := informEvent borrower.TransportID
            ("OK! I removed your debt for order " ++ debt.OrderID) "" "" s2
          let text := "<@" ++ borrower.TransportID ++ "> marked himself as payed for order ID "
            ++ debt.OrderID
          match GetUser env debt.LenderID s3 with
          | (.error _, s4) => (none, informEvent initialChannel text "" debt.MessageID s4)
          | (.ok lender, s4) => (none, informEvent lender.TransportID text "" "" s4)

/-- Source `markDebtAsPaid`. -/
def markDebtAsPaid (env : Env) (orderID reactedTransportID initialChannel : String)
    (s : State) : Option Error × State :=
  if env.hasDebtStore = false then (none, s)
  else
    match ListDebtsForOrderID env orderID s with
    | (.error err, s1) => (some (Error.wrap "list debts" err), s1)
    | (.ok debts, s1) =>
      match debts with
      | [] => (none, s1)
      | _ :: _ => markDebtAsPaidLoop env orderID reactedTransportID initialChannel debts s1

/-! ## Reminders -/

/-- Source constant `NoMessagesAfterHour`. -/
def NoMessagesAfterHour : Nat := 21

/-- Source constant `NoMessagesBeforeHour`. -/
def NoMessagesBeforeHour : Nat := 9

/-- Rendering of `%.2f` for an amount held in hundredths. -/
def fmtAmount (a : Nat) : String :=
  toString (a / 100) ++ "." ++ toString (a % 100 / 10) ++ toString (a % 10)

/-- The `timeAtBorrower` of `remindDebt`: now in the borrower's zone when the
profile names a zone that loads, the system's now otherwise. -/
def timeAtBorrower (env : Env) (borrower : User) : Time :=
  if borrower.Timezone ≠ "" then
    match env.NowIn borrower.Timezone with
    | some t => t
    | none => env.Now
  else env.Now

/-- Text of the reminder built in `remindDebt`. -/
def reminderText (env : Env) (debt : Debt) : String :=
  "Reminder, you should pay " ++ fmtAmount debt.Amount ++ " nis to <@" ++ debt.LenderID
    ++ "> for Wolt order ID " ++ debt.OrderID ++ ".\n"
    ++ "If you paid, you can mark yourself as paid by adding :" ++ env.MarkAsPaidReaction
    ++ ": reaction to this message \\ the original rates message."

/-- Source `remindDebt`. -/
def remindDebt (env : Env) (debt : Debt) (s : State) : Option Error × State :=
  match GetUser env debt.BorrowerID s with
  | (.error err, s1) => (some (Error.wrap "get borrower user" err), s1)
  | (.ok borrower, s1) =>
    if (timeAtBorrower env borrower).Hour ≥ NoMessagesAfterHour
        ∨ (timeAtBorrower env borrower).Hour < NoMessagesBeforeHour then
      (none, s1)
    else
      (none, informEvent borrower.TransportID (reminderText env debt)
        env.MarkAsPaidReaction "" s1)

/-! ## The order-id pattern -/

/-- Regular expressions, as far as `groupFromMessageRe` needs them: a literal
character, a character class, a lazily repeated class `[...]+?`, the capture
group, and concatenation. -/
inductive Regex where
  | chr (c : Char)
  | cls (p : Char → Bool)
  | lazyPlus (p : Char → Bool)
  | group (r : Regex)
  | seq (a b : Regex)

/-- Lazy repetition `[...]+?` in front of the continuation `k`: take one
character of the class, then prefer to stop and run `k`, and take a further
character only when `k` fails. -/
def lazyLoop {α : Type} (p : Char → Bool) (k : List Char → Option α) :
    List Char → Option α
  | [] => none
  | c :: cs =>
    if p c then
      match k cs with
      | some r => some r
      | none => lazyLoop p k cs
    else none

/-- Backtracking matcher anchored at the head of the input: `k` receives the
rest of the input and the text captured by the group so far. -/
def Regex.exec {α : Type} :
    Regex → List Char → Option (List Char) →
      (List Char → Option (List Char) → Option α) → Option α
  | .chr c, s, cap, k =>
    match s with
    | x :: xs => if x = c then k xs cap else none
    | [] => none
  | .cls p, s, cap, k =>
    match s with
    | x :: xs => if p x then k xs cap else none
    | [] => none
  | .lazyPlus p, s, cap, k => lazyLoop p (fun rest => k rest cap) s
  | .group r, s, cap, k =>
    r.exec s cap (fun rest _ => k rest (some (s.take (s.length - rest.length))))
  | .seq a b, s, cap, k => a.exec s cap (fun rest cap1 => b.exec rest cap1 k)

/-- Unanchored search, as `FindStringSubmatch` does it: the match starting at
the leftmost position that has one.  The result is the capture of the group. -/
def Regex.find (r : Regex) : List Char → Option (Option (List Char))
  | [] => r.exec [] none (fun _ cap => some cap)
  | c :: cs =>
    match r.exec (c :: cs) none (fun _ cap => some cap) with
    | some m => some m
    | none => Regex.find r cs

/-- Sequence of literal characters followed by `r`. -/
def Regex.lits (cs : List Char) (r : Regex) : Regex :=
  cs.foldr (fun c acc => Regex.seq (Regex.chr c) acc) r

/-- The marker phrase of the pattern. -/
def marker : List Char := "Wolt order ID ".toList

/-- Class `[A-Z0-9]`. -/
def isUpperDigit (c : Char) : Bool :=
  ('A' ≤ c ∧ c ≤ 'Z') ∨ ('0' ≤ c ∧ c ≤ '9')

/-- Class `\s` of Go regular expressions: `[\t\n\f\r ]`. -/
def isSpaceClass (c : Char) : Bool :=
  c = '\t' ∨ c = '\n' ∨ c = '\x0c' ∨ c = '\r' ∨ c = ' '

/-- Class `[\s\.$]`: inside a class, `$` is the dollar character. -/
def isDelim (c : Char) : Bool :=
  isSpaceClass c ∨ c = '.' ∨ c = '$'

/-- Source `groupFromMessageRe`, the pattern
`Wolt order ID (?P<id>[A-Z0-9]+?)[\s\.$]`. -/
def groupFromMessageRe : Regex :=
  Regex.lits marker
    (Regex.seq (Regex.group (Regex.lazyPlus isUpperDigit)) (Regex.cls isDelim))

/-- Target of the match, `ParsedWoltGroupID`. -/
structure ParsedWoltGroupID where
  ID : String
deriving DecidableEq, Repr

/-- Call `groupFromMessageRe.MatchToTarget(text, parsedID)` of `regroup`: the
group `id` of the leftmost match, `NoMatchFoundError` when the text has no
match, another error when the match leaves the group empty. -/
def MatchToTarget (text : String) : Except Error ParsedWoltGroupID :=
  match groupFromMessageRe.find text.toList with
  | none => .error Error.noMatchFound
  | some none => .error Error.regroup
  | some (some id) => .ok ⟨String.mk id⟩

/-! ## Reaction dispatcher -/

/-- The `case HostRemoveDebts:` branch of `HandleReactionAdded`. -/
def hostRemoveDebts (env : Env) (req : ReactionAddRequest) (orderID : String)
    (s : State) : (String × Option Error) × State :=
  match hostForOrderID env orderID s with
  | ((_, some _), s1) => (("", none), s1)
  | ((hostForOrder, none), s1) =>
    if hostForOrder = "" then (("", none), s1)
    else
      match GetUser env hostForOrder s1 with
      | (.error _, s2) => (("", none), s2)
      | (.ok hostUser, s2) =>
        if hostUser.TransportID ≠ req.FromUserID then
          (("", none), informEvent req.FromUserID
            ("Nice try :stuck_out_tongue_winking_eye: Only the host (<@" ++ hostForOrder
              ++ ">) can cancel debts for this order") "" "" s2)
        else
          (("", none),
            (removeAllDebtsForOrder env orderID
              "the host requested to cancel debts tracking" s2).2)

/-- Source `HandleReactionAdded`. -/
def HandleReactionAdded (env : Env) (req : ReactionAddRequest) (s : State) :
    (String × Option Error) × State :=
  if env.hasDebtStore = false then (("", none), s)
  else if (req.Reaction ≠ env.MarkAsPaidReaction ∧ req.Reaction ≠ env.HostRemoveDebts)
      ∨ req.MessageUserID ≠ env.selfID then (("", none), s)
  else
    match MatchToTarget req.MessageText with
    | .error Error.noMatchFound => (("", none), s)
    | .error err => (("", some (Error.wrap "regroup match to target" err)), s)
    | .ok parsedID =>
      if req.Reaction = env.MarkAsPaidReaction then
        (("", none), (markDebtAsPaid env parsedID.ID req.FromUserID req.Channel s).2)
      else if req.Reaction = env.HostRemoveDebts then
        hostRemoveDebts env req parsedID.ID s
      else (("", none), s)

/-! ## Reminder worker -/

/-- What the `select` of `DebtWorker` receives: a tick of the reminder ticker,
or the end of the context (the maximum duration has elapsed). -/
inductive WorkerEvent where
  | tick
  | deadline
deriving DecidableEq, Repr

/-- Worker states: still in the `for` loop, or returned. -/
inductive WorkerStatus where
  | active
  | terminated
deriving DecidableEq, Repr

/-- The `for _, debt := range debts` loop of `DebtWorker`: remind every listed
debt in turn; an error of `remindDebt` is logged and the loop goes on. -/
def remindAll (env : Env) : List Debt → State → State
  | [], s => s
  | debt :: rest, s => remindAll env rest (remindDebt env debt s).2

/-- One round of the `select` of `DebtWorker`. -/
def workerStep (env : Env) (orderID : String) : WorkerEvent → State → WorkerStatus × State
  | .tick, s =>
    match ListDebtsForOrderID env orderID s with
    | (.error _, s1) => (.active, s1)
    | (.ok debts, s1) =>
      match debts with
      | [] => (.terminated, s1)
      | _ :: _ => (.active, remindAll env debts s1)
  | .deadline, s =>
    (.terminated, (removeAllDebtsForOrder env orderID "timeout has been reached" s).2)

/-- The `for { select { ... } }` of `DebtWorker` on the events the runtime
delivers, in order: the loop goes on until a round returns; with no event left
the worker is blocked in `select`, still active. -/
def workerLoop (env : Env) (orderID : String) : List WorkerEvent → State → WorkerStatus × State
  | [], s => (.active, s)
  | ev :: evs, s =>
    match workerStep env orderID ev s with
    | (.terminated, s1) => (.terminated, s1)
    | (.active, s1) => workerLoop env orderID evs s1

/-- Source `DebtWorker`, run on the events the runtime delivers to its `select`. -/
def DebtWorker (env : Env) (orderID : String) (events : List WorkerEvent) (s : State) :
    WorkerStatus × State :=
  if env.hasDebtStore = false then (.terminated, s)
  else workerLoop env orderID events s

/-! ## Creating debts -/

/-- Modelled from the spec: `debtDomain.NewDebt` (declared outside `debt.go`)
builds the record from its arguments; `id` is the identifier it generates. -/
def NewDebt (id borrowerID lenderID orderID initiatedTransport messageID : String)
    (amount : Nat) : Debt :=
  ⟨id, borrowerID, lenderID, orderID, initiatedTransport, messageID, amount⟩

/-- Modelled from the spec: the debt store's `AdDebt` (the store is behind an
interface). It appends the record to the rows, or fails with a store error. -/
def AdDebt (env : Env) (debt : Debt) (s : State) : Option Error × State :=
  if env.storeFails s.storeCalls then
    (some Error.store,
      { s with storeCalls := s.storeCalls + 1,
               trace := s.trace ++ [Effect.addDebt debt false] })
  else
    (none,
      { debts := s.debts ++ [debt],
        storeCalls := s.storeCalls + 1,
        trace := s.trace ++ [Effect.addDebt debt true] })

/-- Source `createDebt`; `freshID n` is the identifier `NewDebt` generates when
`n` store calls have been made. -/
def createDebt (env : Env) (freshID : Nat → String) (amount : Nat)
    (initiatedTransport orderID messageID : String) (borrowerUser lenderUser : User)
    (s : State) : Option Error × State :=
  if env.hasDebtStore = false then (none, s)
  else
    match AdDebt env (NewDebt (freshID s.storeCalls) borrowerUser.ID lenderUser.ID orderID
        initiatedTransport messageID amount) s with
    | (some err, s1) => (some (Error.wrap "add debt" err), s1)
    | (none, s1) => (none, s1)

/-- The `for name, amount := range rates` loop of `addDebts`, on the entries of
the map in the order the iteration visits them. -/
def addDebtsLoop (env : Env) (freshID : Nat → String) (usersMap : String → Option User)
    (initiatedTransport orderID lender messageID : String) (lenderUser : User) :
    List (String × Nat) → State → State
  | [], s => s
  | (name, amount) :: rest, s =>
    if name = lender then
      addDebtsLoop env freshID usersMap initiatedTransport orderID lender messageID lenderUser
        rest s
    else
      match usersMap name with
      | none =>
        addDebtsLoop env freshID usersMap initiatedTransport orderID lender messageID
          lenderUser rest
          (informEvent initiatedTransport
            ("I won't track \"" ++ name ++ "\" payment because I can't find his user.")
            "" messageID s)
      | some user =>
        addDebtsLoop env freshID usersMap initiatedTransport orderID lender messageID
          lenderUser rest
          (createDebt env freshID amount initiatedTransport orderID messageID user
            lenderUser s).2

/-- Source `addDebts`, up to the start of the worker: the goroutine started by
`go h.DebtWorker(ctx, orderID)` is `DebtWorker`, run on the events its `select`
receives. -/
def addDebts (env : Env) (freshID : Nat → String) (usersMap : String → Option User)
    (initiatedTransport orderID : String) (rates : List (String × Nat))
    (lender messageID : String) (s : State) : Option Error × State :=
  if env.hasDebtStore = false then (none, s)
  else
    match usersMap lender with
    | none =>
      (none, informEvent initiatedTransport
        ("I didn't find the user of the host (" ++ lender ++ "), I won't track debts for order "
          ++ orderID) "" messageID s)
    | some lenderUser =>
      (none, addDebtsLoop env freshID usersMap initiatedTransport orderID lender messageID
        lenderUser rates
        (informEvent initiatedTransport
          ("I'll keep reminding you to pay, when you pay you can react with :"
            ++ env.MarkAsPaidReaction
            ++ ": to the rates message and I'll stop bothering you.\n"
            ++ "<@" ++ lenderUser.TransportID ++ ">, as the host, you can react with :"
            ++ env.HostRemoveDebts
            ++ ": to the rates message to cancel debts tracking for Wolt order ID " ++ orderID)
          "" messageID s))

/-! ## Sample data -/

/-- Sample directory: lender `l`, borrowers `b1` and `b2`; any other id fails. -/
def sampleUsers (id : String) : Option User :=
  if id = "l" then some ⟨"l", "Lender", "TL", ""⟩
  else if id = "b1" then some ⟨"b1", "Borrower One", "TB1", ""⟩
  else if id = "b2" then some ⟨"b2", "Borrower Two", "TB2", ""⟩
  else none

/-- Sample service: store configured, no store call fails, noon. -/
def sampleEnv : Env where
  selfID := "BOLT"
  hasDebtStore := true
  MarkAsPaidReaction := "money_mouth_face"
  HostRemoveDebts := "x"
  GetUser := sampleUsers
  storeFails := fun _ => false
  Now := ⟨12, 0⟩
  NowIn := fun _ => none

/-- Sample store: order `ABC123` with the debts of `b1` and `b2` to `l`, and a
debt of another order. -/
def sampleState : State where
  debts :=
    [⟨"d1", "b1", "l", "ABC123", "C1", "m1", 1000⟩,
     ⟨"d0", "b1", "l", "ZZZ9", "C1", "m0", 700⟩,
     ⟨"d2", "b2", "l", "ABC123", "C1", "m1", 1500⟩]
  storeCalls := 0
  trace := []

/-- Sample host-cancel reaction of the lender on a message of the service. -/
def sampleCancel : ReactionAddRequest where
  Reaction := "x"
  MessageUserID := "BOLT"
  MessageText := "you can react to cancel debts tracking for Wolt order ID ABC123."
  FromUserID := "TL"
  Channel := "C1"

/-- Sample host-cancel reaction of the borrower `b1`, who is not the host. -/
def sampleIntruder : ReactionAddRequest where
  Reaction := "x"
  MessageUserID := "BOLT"
  MessageText := "you can react to cancel debts tracking for Wolt order ID ABC123."
  FromUserID := "TB1"
  Channel := "C1"

/-- Sample host-cancel reaction of the lender on a message of the service
whose text ends with the order id. -/
def sampleAtEnd : ReactionAddRequest where
  Reaction := "x"
  MessageUserID := "BOLT"
  MessageText := "you can react to cancel debts tracking for Wolt order ID ABC123"
  FromUserID := "TL"
  Channel := "C1"

/-- Sample reaction of another kind on a message of the service. -/
def sampleThumbsUp : ReactionAddRequest where
  Reaction := "thumbsup"
  MessageUserID := "BOLT"
  MessageText := "you can react to cancel debts tracking for Wolt order ID ABC123."
  FromUserID := "TL"
  Channel := "C1"

/-- Sample users map of an order: the participant names `Rami` and `Rami K`
belong to the same user `u1`, the name `Dana` to the user `u2`. -/
def sampleAliasUsers (name : String) : Option User :=
  if name = "Rami" then some ⟨"u1", "Rami", "T1", ""⟩
  else if name = "Rami K" then some ⟨"u1", "Rami", "T1", ""⟩
  else if name = "Dana" then some ⟨"u2", "Dana", "T2", ""⟩
  else none

/-- Sample rates of that order, in iteration order. -/
def sampleRates : List (String × Nat) :=
  [("Rami", 1000), ("Rami K", 1500), ("Dana", 800)]

/-- Sample identifiers of new debts. -/
def sampleFreshID (n : Nat) : String := "debt-" ++ toString n

/-- Sample empty store. -/
def sampleEmptyState : State where
  debts := []
  storeCalls := 0
  trace := []

/-- Sample service whose third store call fails. -/
def sampleFailingEnv : Env :=
  { sampleEnv with storeFails := fun n => n = 2 }

/-- Sample directory with time zones: `bt` lives in `Asia/Tokyo`, `bl` in
`America/Lima`, the profile of `bm` names a zone that does not load, and the
profile of `bn` names no zone. -/
def sampleZoneUsers (id : String) : Option User :=
  if id = "l" then some ⟨"l", "Lender", "TL", ""⟩
  else if id = "bt" then some ⟨"bt", "Borrower Tokyo", "TBT", "Asia/Tokyo"⟩
  else if id = "bl" then some ⟨"bl", "Borrower Lima", "TBL", "America/Lima"⟩
  else if id = "bm" then some ⟨"bm", "Borrower Mars", "TBM", "Mars/Base"⟩
  else if id = "bn" then some ⟨"bn", "Borrower Nowhere", "TBN", ""⟩
  else none

/-- Sample service late in the evening: 23:00 on the system, 12:00 in
`Asia/Tokyo`, 22:00 in `America/Lima`; no other zone loads. -/
def sampleEveningEnv : Env where
  selfID := "BOLT"
  hasDebtStore := true
  MarkAsPaidReaction := "money_mouth_face"
  HostRemoveDebts := "x"
  GetUser := sampleZoneUsers
  storeFails := fun _ => false
  Now := ⟨23, 0⟩
  NowIn := fun tz =>
    if tz = "Asia/Tokyo" then some ⟨12, 0⟩
    else if tz = "America/Lima" then some ⟨22, 0⟩
    else none

/-- Sample service at noon: 12:00 on the system, 04:00 in `Asia/Tokyo`, 11:00 in
`America/Lima`; no other zone loads. -/
def sampleNoonEnv : Env where
  selfID := "BOLT"
  hasDebtStore := true
  MarkAsPaidReaction := "money_mouth_face"
  HostRemoveDebts := "x"
  GetUser := sampleZoneUsers
  storeFails := fun _ => false
  Now := ⟨12, 0⟩
  NowIn := fun tz =>
    if tz = "Asia/Tokyo" then some ⟨4, 0⟩
    else if tz = "America/Lima" then some ⟨11, 0⟩
    else none

/-- Sample store for order `TZ1`: the debts of `bt`, of an unknown borrower,
of `bl`, of `bm` and of `bn`, in this order. -/
def sampleZoneState : State where
  debts :=
    [⟨"z1", "bt", "l", "TZ1", "C1", "m9", 1000⟩,
     ⟨"z2", "ghost", "l", "TZ1", "C1", "m9", 1100⟩,
     ⟨"z3", "bl", "l", "TZ1", "C1", "m9", 1200⟩,
     ⟨"z4", "bm", "l", "TZ1", "C1", "m9", 1300⟩,
     ⟨"z5", "bn", "l", "TZ1", "C1", "m9", 1400⟩]
  storeCalls := 0
  trace := []

/-! ## Specification vocabulary -/

/-- The borrower of the debt resolves in the directory, to transport id `u`. -/
def resolvesTo (env : Env) (u : String) (d : Debt) : Bool :=
  match env.GetUser d.BorrowerID with
  | some b => b.TransportID = u
  | none => false

/-- Debt ids are unique within the order (invariant of the data model). -/
def uniqueIDs (orderID : String) (rows : List Debt) : Prop :=
  ((debtsOfOrder orderID rows).map Debt.ID).Nodup

/-- The borrower's local time, following the words of the spec ("now in the
borrower's timezone if known, else system default"): the time of the zone the
profile names, when it names one and that zone is known, and the time of the
system otherwise. -/
def borrowerLocalTime (env : Env) (b : User) : Time :=
  (if b.Timezone = "" then none else env.NowIn b.Timezone).getD env.Now

/-- The reminder a debt is due at a tick: none when the borrower does not
resolve or when the borrower's local hour is in the quiet window (before 9 or
from 21 on), otherwise the reminder text, addressed to the borrower's transport
id. -/
def reminderFor (env : Env) (d : Debt) : Option Notification :=
  match env.GetUser d.BorrowerID with
  | none => none
  | some b =>
    if 9 ≤ (borrowerLocalTime env b).Hour ∧ (borrowerLocalTime env b).Hour < 21 then
      some ⟨b.TransportID, reminderText env d, env.MarkAsPaidReaction, ""⟩
    else none

/-- The effect is a call on the debt store that failed. -/
def storeFailure : Effect → Bool
  | Effect.listDebts _ ok => !ok
  | Effect.removeDebt _ _ ok => !ok
  | Effect.addDebt _ ok => !ok
  | _ => false

/-- The two notifications of a successful mark-paid of debt `d` by the reactor
`u` in channel `ch`: the confirmation to the reactor, then the paid notice, to
the lender's transport id when the lender resolves, else to the channel, in the
thread of the debt's message. -/
def paidNotifications (env : Env) (u ch : String) (d : Debt) : List Notification :=
  [⟨u, "OK! I removed your debt for order " ++ d.OrderID, "", ""⟩,
   match env.GetUser d.LenderID with
   | some lender =>
     ⟨lender.TransportID, "<@" ++ u ++ "> marked himself as payed for order ID " ++ d.OrderID,
       "", ""⟩
   | none =>
     ⟨ch, "<@" ++ u ++ "> marked himself as payed for order ID " ++ d.OrderID,
       "", d.MessageID⟩]

/-! ## Basic facts on the collaborators -/

@[simp] theorem emit_debts (s : State) (e : Effect) : (s.emit e).debts = s.debts := rfl

@[simp] theorem emit_storeCalls (s : State) (e : Effect) :
    (s.emit e).storeCalls = s.storeCalls := rfl

@[simp] theorem emit_trace (s : State) (e : Effect) : (s.emit e).trace = s.trace ++ [e] := rfl

@[simp] theorem informEvent_debts (a b c d : String) (s : State) :
    (informEvent a b c d s).debts = s.debts := rfl

@[simp] theorem informEvent_storeCalls (a b c d : String) (s : State) :
    (informEvent a b c d s).storeCalls = s.storeCalls := rfl

@[simp] theorem informEvent_trace (a b c d : String) (s : State) :
    (informEvent a b c d s).trace = s.trace ++ [Effect.inform ⟨a, b, c, d⟩] := rfl

theorem GetUser_some (env : Env) (id : String) (s : State) (u : User)
    (h : env.GetUser id = some u) :
    GetUser env id s = (.ok u, s.emit (Effect.getUser id true)) := by
  simp [GetUser, h]

theorem GetUser_none (env : Env) (id : String) (s : State)
    (h : env.GetUser id = none) :
    GetUser env id s = (.error Error.userNotFound, s.emit (Effect.getUser id false)) := by
  simp [GetUser, h]

/-- Removing by id the debt `d` of an order with unique ids erases `d` and
nothing else. -/
theorem filter_id_eq_erase (o : String) (d : Debt) :
    ∀ rows : List Debt, d ∈ debtsOfOrder o rows → uniqueIDs o rows →
      rows.filter (fun x => ¬ (x.OrderID = o ∧ x.ID = d.ID)) = rows.erase d := by
  intro rows
  induction rows with
  | nil => intro h; simp [debtsOfOrder] at h
  | cons x xs ih =>
    intro hmem huniq
    have hdo : d.OrderID = o := by
      have := (List.mem_filter.mp hmem).2
      simpa using this
    by_cases hx : x = d
    · subst hx
      have hnot : ∀ y ∈ xs, ¬ (y.OrderID = o ∧ y.ID = x.ID) := by
        intro y hy hyo
        have hnd : (x.ID :: (debtsOfOrder o xs).map Debt.ID).Nodup := by
          simpa [uniqueIDs, debtsOfOrder, hdo] using huniq
        have : x.ID ∈ (debtsOfOrder o xs).map Debt.ID := by
          refine List.mem_map.mpr ⟨y, ?_, hyo.2⟩
          exact List.mem_filter.mpr ⟨hy, by simpa using hyo.1⟩
        exact (List.nodup_cons.mp hnd).1 this
      have hfil : xs.filter (fun y => ¬ (y.OrderID = o ∧ y.ID = x.ID)) = xs := by
        apply List.filter_eq_self.mpr
        intro y hy
        exact decide_eq_true (hnot y hy)
      rw [List.filter_cons_of_neg (by simp [hdo]), List.erase_cons_head, hfil]
    · have hmem' : d ∈ debtsOfOrder o xs := by
        have h1 := List.mem_filter.mp hmem
        rcases List.mem_cons.mp h1.1 with h2 | h2
        · exact absurd h2.symm hx
        · exact List.mem_filter.mpr ⟨h2, h1.2⟩
      by_cases hxo : x.OrderID = o
      · have hnd : (x.ID :: (debtsOfOrder o xs).map Debt.ID).Nodup := by
          simpa [uniqueIDs, debtsOfOrder, hxo] using huniq
        have hne : x.ID ≠ d.ID := by
          intro heq
          apply (List.nodup_cons.mp hnd).1
          rw [heq]
          exact List.mem_map.mpr ⟨d, hmem', rfl⟩
        have ih' := ih hmem' (List.nodup_cons.mp hnd).2
        rw [List.erase_cons_tail (by simpa using hx),
          List.filter_cons_of_pos (by simp [hne]), ih']
      · have huniq' : uniqueIDs o xs := by
          simpa [uniqueIDs, debtsOfOrder, List.filter_cons, hxo] using huniq
        have ih' := ih hmem' huniq'
        rw [List.erase_cons_tail (by simpa using hx),
          List.filter_cons_of_pos (by simp [hxo]), ih']

/-! ## Mark as paid -/

/-- Outcome of the scan of `markDebtAsPaid`: nothing happens to the rows when
no debt resolves to the reactor; otherwise the first such debt is the one whose
removal is requested from the store. -/
theorem markDebtAsPaidLoop_spec (env : Env) (o u ch : String) :
    ∀ (ds : List Debt) (s : State),
      (markDebtAsPaidLoop env o u ch ds s).2.debts =
          (match ds.find? (resolvesTo env u) with
           | some d =>
             if env.storeFails s.storeCalls then s.debts
             else s.debts.filter (fun x => ¬ (x.OrderID = o ∧ x.ID = d.ID))
           | none => s.debts)
      ∧ (markDebtAsPaidLoop env o u ch ds s).1 =
          (match ds.find? (resolvesTo env u) with
           | some _ =>
             if env.storeFails s.storeCalls then some (Error.wrap "remove debt" Error.store)
             else none
           | none => none) := by
  intro ds
  induction ds with
  | nil => intro s; simp [markDebtAsPaidLoop]
  | cons d rest ih =>
    intro s
    cases hb : env.GetUser d.BorrowerID with
    | none =>
      have hr : resolvesTo env u d = false := by simp [resolvesTo, hb]
      have := ih (s.emit (Effect.getUser d.BorrowerID false))
      simpa [markDebtAsPaidLoop, GetUser_none env _ s hb, List.find?_cons, hr] using this
    | some b =>
      by_cases ht : b.TransportID = u
      · have hr : resolvesTo env u d = true := by simp [resolvesTo, hb, ht]
        by_cases hf : env.storeFails s.storeCalls = true
        · simp [markDebtAsPaidLoop, GetUser_some env _ s b hb, List.find?_cons, hr, ht,
            RemoveDebtInOrderID, hf]
        · cases hl : env.GetUser d.LenderID with
          | none =>
            simp [markDebtAsPaidLoop, GetUser_some env _ s b hb, List.find?_cons, hr, ht,
              RemoveDebtInOrderID, hf, GetUser_none env _ _ hl]
          | some l =>
            simp [markDebtAsPaidLoop, GetUser_some env _ s b hb, List.find?_cons, hr, ht,
              RemoveDebtInOrderID, hf, GetUser_some env _ _ l hl]
      · have hr : resolvesTo env u d = false := by simp [resolvesTo, hb, ht]
        have := ih (s.emit (Effect.getUser d.BorrowerID true))
        simpa [markDebtAsPaidLoop, GetUser_some env _ s b hb, List.find?_cons, hr, ht] using this

/-- C1: `markDebtAsPaid` removes at most one debt, namely the first debt in
listing order whose borrower resolves to the reacting transport id; all other
rows of the store (later debts of the same borrower, debts whose borrower lookup
failed, debts of other borrowers) stay as they were, in the same order.  When
the store is configured and neither the listing nor the removal fails, that
first debt is indeed removed. -/
theorem markDebtAsPaid_removes_first_match (env : Env) (o u ch : String) (s : State)
    (huniq : uniqueIDs o s.debts) :
    ((markDebtAsPaid env o u ch s).2.debts = s.debts
      ∨ ∃ d, (debtsOfOrder o s.debts).find? (resolvesTo env u) = some d
          ∧ (markDebtAsPaid env o u ch s).2.debts = s.debts.erase d)
    ∧ (env.hasDebtStore = true → env.storeFails s.storeCalls = false →
        env.storeFails (s.storeCalls + 1) = false →
        ∀ d, (debtsOfOrder o s.debts).find? (resolvesTo env u) = some d →
          (markDebtAsPaid env o u ch s).2.debts = s.debts.erase d) := by
  by_cases hs : env.hasDebtStore = false
  · simp [markDebtAsPaid, hs]
  by_cases hf : env.storeFails s.storeCalls = true
  · simp [markDebtAsPaid, hs, ListDebtsForOrderID, hf]
  cases hds : debtsOfOrder o s.debts with
  | nil => simp [markDebtAsPaid, hs, ListDebtsForOrderID, hf, hds]
  | cons d0 rest =>
    have hloop := (markDebtAsPaidLoop_spec env o u ch (d0 :: rest)
      { s with storeCalls := s.storeCalls + 1,
               trace := s.trace ++ [Effect.listDebts o true] }).1
    have hm : (markDebtAsPaid env o u ch s).2.debts =
        (match (d0 :: rest).find? (resolvesTo env u) with
         | some d =>
           if env.storeFails (s.storeCalls + 1) then s.debts
           else s.debts.filter (fun x => ¬ (x.OrderID = o ∧ x.ID = d.ID))
         | none => s.debts) := by
      simpa [markDebtAsPaid, hs, ListDebtsForOrderID, hf, hds] using hloop
    rw [hm]
    cases hfind : (d0 :: rest).find? (resolvesTo env u) with
    | none => simp
    | some d =>
      have hmem : d ∈ debtsOfOrder o s.debts := by
        rw [hds]; exact List.mem_of_find?_eq_some hfind
      have herase := filter_id_eq_erase o d s.debts hmem huniq
      by_cases hf2 : env.storeFails (s.storeCalls + 1) = true
      · simp [hf2]
      · simp only [hf2, if_false, herase]
        exact ⟨Or.inr ⟨d, rfl, rfl⟩, fun _ _ _ d1 hd1 => by cases hd1; rfl⟩

/-- C1 at the sample order: the reaction of `TB1` removes the debt `d1`. -/
theorem markDebtAsPaid_removes_first_match_witness :
    uniqueIDs "ABC123" sampleState.debts
    ∧ (markDebtAsPaid sampleEnv "ABC123" "TB1" "C1" sampleState).2.debts
        = sampleState.debts.erase ⟨"d1", "b1", "l", "ABC123", "C1", "m1", 1000⟩ :=
  ⟨by unfold uniqueIDs; decide,
   (markDebtAsPaid_removes_first_match sampleEnv "ABC123" "TB1" "C1" sampleState
      (by unfold uniqueIDs; decide)).2 rfl rfl rfl _ (by decide)⟩

/-! ## Cancelling an order -/

/-- When none of the removals fails, the loop of `removeAllDebtsForOrder`
removes every listed id from the order, one store call per debt, and returns
no error. -/
theorem removeAllLoop_ok (env : Env) (o : String) :
    ∀ (ds : List Debt) (s : State),
      (∀ i, i < ds.length → env.storeFails (s.storeCalls + i) = false) →
      removeAllLoop env o ds s =
        (none,
          { debts := s.debts.filter (fun x => ¬ (x.OrderID = o ∧ x.ID ∈ ds.map Debt.ID)),
            storeCalls := s.storeCalls + ds.length,
            trace := s.trace ++ ds.map (fun d => Effect.removeDebt o d.ID true) }) := by
  intro ds
  induction ds with
  | nil => intro s _; simp [removeAllLoop]
  | cons d rest ih =>
    intro s hok
    have h0 : env.storeFails s.storeCalls = false := by
      simpa using hok 0 (by simp)
    have hrest : ∀ i, i < rest.length → env.storeFails (s.storeCalls + 1 + i) = false := by
      intro i hi
      have := hok (i + 1) (by simpa using hi)
      simpa [Nat.add_assoc, Nat.add_comm 1 i] using this
    have hstep := ih
      { debts := s.debts.filter fun x => ¬ (x.OrderID = o ∧ x.ID = d.ID),
        storeCalls := s.storeCalls + 1,
        trace := s.trace ++ [Effect.removeDebt o d.ID true] } hrest
    simp only [removeAllLoop, RemoveDebtInOrderID, h0, Bool.false_eq_true, if_false, hstep]
    simp only [List.filter_filter, List.map_cons, List.length_cons, List.append_assoc,
      List.singleton_append, Prod.mk.injEq, true_and, State.mk.injEq]
    refine ⟨?_, by omega, trivial⟩
    apply List.filter_congr
    intro x _
    by_cases h1 : x.OrderID = o <;> by_cases h2 : x.ID = d.ID <;> simp [h1, h2]

/-- Successful run of `removeAllDebtsForOrder` on an order that has debts: no
error, every debt of the order is gone, the other orders are untouched, and the
trace grows by the listing, one removal per debt, and one message to the lender
id of the first listed debt. -/
theorem removeAllDebtsForOrder_ok (env : Env) (o reason : String) (s : State)
    (d0 : Debt) (rest : List Debt)
    (hstore : env.hasDebtStore = true)
    (hds : debtsOfOrder o s.debts = d0 :: rest)
    (hok : ∀ i, i ≤ rest.length + 1 → env.storeFails (s.storeCalls + i) = false) :
    removeAllDebtsForOrder env o reason s =
      (none,
        { debts := s.debts.filter (fun x => x.OrderID ≠ o),
          storeCalls := s.storeCalls + 1 + (rest.length + 1),
          trace := s.trace ++ [Effect.listDebts o true]
            ++ (d0 :: rest).map (fun d => Effect.removeDebt o d.ID true)
            ++ [Effect.inform ⟨d0.LenderID,
                  "I removed all debts for order ID " ++ o ++ " because " ++ reason, "", ""⟩] }) := by
  have h0 : env.storeFails s.storeCalls = false := by simpa using hok 0 (by omega)
  have hloop := removeAllLoop_ok env o (d0 :: rest)
    { s with storeCalls := s.storeCalls + 1, trace := s.trace ++ [Effect.listDebts o true] }
    (by
      intro i hi
      have := hok (i + 1) (by simp at hi; omega)
      simpa [Nat.add_assoc, Nat.add_comm 1 i] using this)
  have hfil : s.debts.filter (fun x => ¬ (x.OrderID = o ∧ x.ID ∈ (d0 :: rest).map Debt.ID))
      = s.debts.filter (fun x => x.OrderID ≠ o) := by
    apply List.filter_congr
    intro x hx
    by_cases h1 : x.OrderID = o
    · have hmem : x ∈ d0 :: rest := by
        rw [← hds]; exact List.mem_filter.mpr ⟨hx, by simpa using h1⟩
      have : x.ID ∈ (d0 :: rest).map Debt.ID := List.mem_map.mpr ⟨x, hmem, rfl⟩
      simp only [h1, this, and_self, not_true_eq_false, ne_eq]
    · simp [h1]
  simp only [removeAllDebtsForOrder, hstore, ListDebtsForOrderID, h0, hds]
  simp only [Bool.true_eq_false, Bool.false_eq_true, if_false]
  rw [hloop]
  simp only [informEvent, State.emit, hfil, List.length_cons, List.append_assoc]

theorem notifications_append (a b : List Effect) :
    notifications (a ++ b) = notifications a ++ notifications b := by
  simp [notifications, List.filterMap_append]

theorem notifications_removes (o : String) (ds : List Debt) :
    notifications (ds.map (fun d => Effect.removeDebt o d.ID true)) = [] := by
  induction ds with
  | nil => rfl
  | cons d rest ih => simp [notifications, List.filterMap_cons]

/-- State reached by the host-cancel branch when the reactor is the host and
no store call fails. -/
theorem hostRemoveDebts_ok (env : Env) (req : ReactionAddRequest) (s : State)
    (o : String) (d0 : Debt) (rest : List Debt) (hostUser : User)
    (hstore : env.hasDebtStore = true)
    (hds : debtsOfOrder o s.debts = d0 :: rest)
    (hhost : d0.LenderID ≠ "")
    (huser : env.GetUser d0.LenderID = some hostUser)
    (hfrom : hostUser.TransportID = req.FromUserID)
    (hok : ∀ n, env.storeFails n = false) :
    hostRemoveDebts env req o s =
      (("", none),
        { debts := s.debts.filter (fun x => x.OrderID ≠ o),
          storeCalls := s.storeCalls + 1 + 1 + (rest.length + 1),
          trace := s.trace ++ [Effect.listDebts o true]
            ++ [Effect.getUser d0.LenderID true]
            ++ [Effect.listDebts o true]
            ++ (d0 :: rest).map (fun d => Effect.removeDebt o d.ID true)
            ++ [Effect.inform ⟨d0.LenderID,
                  "I removed all debts for order ID " ++ o
                    ++ " because " ++ "the host requested to cancel debts tracking",
                  "", ""⟩] }) := by
  have hrem := removeAllDebtsForOrder_ok env o "the host requested to cancel debts tracking"
    { debts := s.debts, storeCalls := s.storeCalls + 1,
      trace := s.trace ++ [Effect.listDebts o true] ++ [Effect.getUser d0.LenderID true] }
    d0 rest hstore hds (fun i _ => hok _)
  simp only [hostRemoveDebts, hostForOrderID, ListDebtsForOrderID, hok, hds,
    Bool.false_eq_true, if_false, hhost, GetUser_some env _ _ hostUser huser, hfrom,
    ne_eq, not_true_eq_false, State.emit]
  rw [hrem]

/-- Success path of the host-cancel, for an order with at least one debt (store
configured, message of the service naming the order, reactor's transport id
equal to that of the resolved host, no store call fails): `HandleReactionAdded`
returns without error, listing the order afterwards returns the empty
sequence, and exactly one notification is sent, the cancellation notice.  Its
receiver is the lender id stored in the first listed debt, which need not be
the transport id `req.FromUserID` of the host. -/
theorem HandleReactionAdded_hostCancel_success (env : Env) (req : ReactionAddRequest)
    (s : State) (o : String) (d0 : Debt) (rest : List Debt) (hostUser : User)
    (hstore : env.hasDebtStore = true)
    (hreact : req.Reaction = env.HostRemoveDebts)
    (hdist : env.HostRemoveDebts ≠ env.MarkAsPaidReaction)
    (hself : req.MessageUserID = env.selfID)
    (hmatch : MatchToTarget req.MessageText = .ok ⟨o⟩)
    (hds : debtsOfOrder o s.debts = d0 :: rest)
    (hhost : d0.LenderID ≠ "")
    (huser : env.GetUser d0.LenderID = some hostUser)
    (hfrom : hostUser.TransportID = req.FromUserID)
    (hok : ∀ n, env.storeFails n = false) :
    (HandleReactionAdded env req s).1 = ("", none)
    ∧ (ListDebtsForOrderID env o (HandleReactionAdded env req s).2).1 = .ok []
    ∧ notifications (HandleReactionAdded env req s).2.trace
        = notifications s.trace
          ++ [⟨d0.LenderID, "I removed all debts for order ID " ++ o ++ " because "
                ++ "the host requested to cancel debts tracking", "", ""⟩] := by
  have hrun : HandleReactionAdded env req s = hostRemoveDebts env req o s := by
    simp [HandleReactionAdded, hstore, hreact, hdist, hself, hmatch]
  rw [hrun, hostRemoveDebts_ok env req s o d0 rest hostUser hstore hds hhost huser hfrom hok]
  refine ⟨rfl, ?_, ?_⟩
  · simp [ListDebtsForOrderID, hok, debtsOfOrder, List.filter_filter]
  · simp only [notifications_append, notifications_removes]
    simp [notifications]

/-- C2: on the sample order the host-cancel path succeeds (the reactor `TL` is
the transport id of the host `l`, no store call fails): listing the order
afterwards returns the empty sequence and exactly one notification, the
cancellation notice, is sent; but it is addressed to `l`, the lender id stored
in the debt, and no notification is addressed to `TL`, the transport id of the
lender. -/
theorem HandleReactionAdded_hostCancel_receiver :
    (ListDebtsForOrderID sampleEnv "ABC123"
        (HandleReactionAdded sampleEnv sampleCancel sampleState).2).1 = .ok []
    ∧ notifications (HandleReactionAdded sampleEnv sampleCancel sampleState).2.trace
        = [⟨"l", "I removed all debts for order ID " ++ "ABC123" ++ " because "
              ++ "the host requested to cancel debts tracking", "", ""⟩]
    ∧ sampleEnv.GetUser "l" = some ⟨"l", "Lender", "TL", ""⟩
    ∧ sampleCancel.FromUserID = "TL"
    ∧ ¬ (∃ n ∈ notifications (HandleReactionAdded sampleEnv sampleCancel sampleState).2.trace,
        n.receiver = "TL") := by
  refine ⟨rfl, by decide, by decide, rfl, by decide⟩

/-- C3: for an order with at least one debt, a host-cancel reaction on a
message of the service whose reactor's transport id differs from the transport
id of the order's resolved host removes no debt (the rows of the store are
unchanged and no removal is requested) and sends exactly one notification, to
the reactor, saying that only the host can cancel. -/
theorem HandleReactionAdded_nonHost_cancel (env : Env) (req : ReactionAddRequest)
    (s : State) (o : String) (d0 : Debt) (rest : List Debt) (hostUser : User)
    (hstore : env.hasDebtStore = true)
    (hreact : req.Reaction = env.HostRemoveDebts)
    (hdist : env.HostRemoveDebts ≠ env.MarkAsPaidReaction)
    (hself : req.MessageUserID = env.selfID)
    (hmatch : MatchToTarget req.MessageText = .ok ⟨o⟩)
    (hlist : env.storeFails s.storeCalls = false)
    (hds : debtsOfOrder o s.debts = d0 :: rest)
    (hhost : d0.LenderID ≠ "")
    (huser : env.GetUser d0.LenderID = some hostUser)
    (hfrom : hostUser.TransportID ≠ req.FromUserID) :
    (HandleReactionAdded env req s).1 = ("", none)
    ∧ (HandleReactionAdded env req s).2.debts = s.debts
    ∧ (HandleReactionAdded env req s).2.trace
        = s.trace ++ [Effect.listDebts o true, Effect.getUser d0.LenderID true,
            Effect.inform ⟨req.FromUserID,
              "Nice try :stuck_out_tongue_winking_eye: Only the host (<@" ++ d0.LenderID
                ++ ">) can cancel debts for this order", "", ""⟩]
    ∧ notifications (HandleReactionAdded env req s).2.trace
        = notifications s.trace
          ++ [⟨req.FromUserID,
              "Nice try :stuck_out_tongue_winking_eye: Only the host (<@" ++ d0.LenderID
                ++ ">) can cancel debts for this order", "", ""⟩] := by
  have hrun : HandleReactionAdded env req s = hostRemoveDebts env req o s := by
    simp [HandleReactionAdded, hstore, hreact, hdist, hself, hmatch]
  have hres : hostRemoveDebts env req o s =
      (("", none),
        { debts := s.debts, storeCalls := s.storeCalls + 1,
          trace := s.trace ++ [Effect.listDebts o true, Effect.getUser d0.LenderID true,
            Effect.inform ⟨req.FromUserID,
              "Nice try :stuck_out_tongue_winking_eye: Only the host (<@" ++ d0.LenderID
                ++ ">) can cancel debts for this order", "", ""⟩] }) := by
    simp [hostRemoveDebts, hostForOrderID, ListDebtsForOrderID, hlist, hds, hhost,
      GetUser_some env _ _ hostUser huser, hfrom, informEvent, State.emit]
  rw [hrun, hres]
  refine ⟨rfl, rfl, rfl, ?_⟩
  simp [notifications, List.filterMap_append]

/-- C3 at the sample order: the borrower `b1` tries to cancel. -/
theorem HandleReactionAdded_nonHost_cancel_witness :
    (HandleReactionAdded sampleEnv sampleIntruder sampleState).2.debts = sampleState.debts
    ∧ notifications (HandleReactionAdded sampleEnv sampleIntruder sampleState).2.trace
        = [⟨"TB1", "Nice try :stuck_out_tongue_winking_eye: Only the host (<@" ++ "l"
              ++ ">) can cancel debts for this order", "", ""⟩] :=
  have h := HandleReactionAdded_nonHost_cancel sampleEnv sampleIntruder sampleState "ABC123"
    ⟨"d1", "b1", "l", "ABC123", "C1", "m1", 1000⟩
    [⟨"d2", "b2", "l", "ABC123", "C1", "m1", 1500⟩] ⟨"l", "Lender", "TL", ""⟩
    rfl rfl (by decide) rfl rfl rfl (by decide) (by decide) (by decide) (by decide)
  ⟨h.2.1, h.2.2.2⟩

/-- C4: cancelling an order that has no debt is a no-op.  For an order whose
debt list is empty, `removeAllDebtsForOrder` and the host-cancel branch of
`HandleReactionAdded` leave the rows of the store as they are and do nothing
but (at most) the listing call: no removal is requested and no notification is
sent.  In particular a second host-cancel after a successful one, which left
the order without debts, changes nothing. -/
theorem cancel_without_debts_noop (env : Env) (req : ReactionAddRequest) (s : State)
    (o reason : String)
    (hempty : debtsOfOrder o s.debts = [])
    (hreact : req.Reaction = env.HostRemoveDebts)
    (hdist : env.HostRemoveDebts ≠ env.MarkAsPaidReaction)
    (hmatch : MatchToTarget req.MessageText = .ok ⟨o⟩) :
    ((removeAllDebtsForOrder env o reason s).2.debts = s.debts
      ∧ ((removeAllDebtsForOrder env o reason s).2.trace = s.trace
          ∨ ∃ ok, (removeAllDebtsForOrder env o reason s).2.trace
              = s.trace ++ [Effect.listDebts o ok]))
    ∧ ((HandleReactionAdded env req s).2.debts = s.debts
      ∧ ((HandleReactionAdded env req s).2.trace = s.trace
          ∨ ∃ ok, (HandleReactionAdded env req s).2.trace
              = s.trace ++ [Effect.listDebts o ok])) := by
  constructor
  · by_cases hs : env.hasDebtStore = false
    · simp [removeAllDebtsForOrder, hs]
    · by_cases hf : env.storeFails s.storeCalls = true
      · simp [removeAllDebtsForOrder, hs, ListDebtsForOrderID, hf]
      · simp [removeAllDebtsForOrder, hs, ListDebtsForOrderID, hf, hempty]
  · by_cases hs : env.hasDebtStore = false
    · simp [HandleReactionAdded, hs]
    · by_cases hself : req.MessageUserID = env.selfID
      · have hrun : HandleReactionAdded env req s = hostRemoveDebts env req o s := by
          simp [HandleReactionAdded, hs, hreact, hdist, hself, hmatch]
        rw [hrun]
        by_cases hf : env.storeFails s.storeCalls = true
        · simp [hostRemoveDebts, hostForOrderID, ListDebtsForOrderID, hf]
        · simp [hostRemoveDebts, hostForOrderID, ListDebtsForOrderID, hf, hempty]
      · simp [HandleReactionAdded, hs, hself]

/-- C4 after a successful host-cancel of the sample order: the second
host-cancel only lists the order. -/
theorem cancel_without_debts_noop_witness :
    (HandleReactionAdded sampleEnv sampleCancel
        (HandleReactionAdded sampleEnv sampleCancel sampleState).2).2.debts
      = (HandleReactionAdded sampleEnv sampleCancel sampleState).2.debts
    ∧ notifications (HandleReactionAdded sampleEnv sampleCancel
        (HandleReactionAdded sampleEnv sampleCancel sampleState).2).2.trace
      = notifications (HandleReactionAdded sampleEnv sampleCancel sampleState).2.trace :=
  have h := (cancel_without_debts_noop sampleEnv sampleCancel
    (HandleReactionAdded sampleEnv sampleCancel sampleState).2 "ABC123" "again"
    (by decide) rfl (by decide) rfl).2
  ⟨h.1, by
    rcases h.2 with h2 | ⟨ok, h2⟩
    · rw [h2]
    · rw [h2, notifications_append]; simp [notifications]⟩

/-! ## Quiet hours -/

/-- The two outcomes of `remindDebt` for a borrower who resolves: inside the
window 9 ≤ hour < 21 the reminder is sent, outside nothing is sent. -/
theorem remindDebt_resolved (env : Env) (debt : Debt) (s : State) (b : User)
    (hb : env.GetUser debt.BorrowerID = some b) :
    remindDebt env debt s =
      if 9 ≤ (timeAtBorrower env b).Hour ∧ (timeAtBorrower env b).Hour < 21 then
        (none, { s with trace := s.trace ++ [Effect.getUser debt.BorrowerID true,
            Effect.inform ⟨b.TransportID, reminderText env debt, env.MarkAsPaidReaction, ""⟩] })
      else
        (none, { s with trace := s.trace ++ [Effect.getUser debt.BorrowerID true] }) := by
  by_cases h1 : (timeAtBorrower env b).Hour ≥ 21
  · have h2 : ¬ (9 ≤ (timeAtBorrower env b).Hour ∧ (timeAtBorrower env b).Hour < 21) := by
      omega
    simp only [h2, if_false]
    simp [remindDebt, GetUser_some env _ s b hb, NoMessagesAfterHour, NoMessagesBeforeHour,
      h1, State.emit]
  · by_cases h3 : (timeAtBorrower env b).Hour < 9
    · have h2 : ¬ (9 ≤ (timeAtBorrower env b).Hour ∧ (timeAtBorrower env b).Hour < 21) := by
        omega
      simp only [h2, if_false]
      simp [remindDebt, GetUser_some env _ s b hb, NoMessagesAfterHour, NoMessagesBeforeHour,
        h3, State.emit]
    · have h2 : 9 ≤ (timeAtBorrower env b).Hour ∧ (timeAtBorrower env b).Hour < 21 := by
        omega
      simp only [h2, and_self, if_true]
      have h4 : ¬ (21 ≤ (timeAtBorrower env b).Hour) := by omega
      simp [remindDebt, GetUser_some env _ s b hb, NoMessagesAfterHour, NoMessagesBeforeHour,
        h3, h4, State.emit, informEvent]

/-- The time `remindDebt` computes is the borrower's local time. -/
theorem timeAtBorrower_eq (env : Env) (b : User) :
    timeAtBorrower env b = borrowerLocalTime env b := by
  unfold timeAtBorrower borrowerLocalTime
  by_cases hz : b.Timezone = ""
  · simp [hz]
  · cases hn : env.NowIn b.Timezone <;> simp [hz, hn]

/-- C5: for a borrower whose profile resolves, with local time `t` (the time of
the zone the profile names when that zone loads, the time of the system when
the profile names no zone or the zone does not load), `remindDebt` sends the
reminder if and only if `9 ≤ t.Hour < 21`; a suppressed reminder sends
nothing; in both cases no debt is removed and no error is returned.  In
particular the local times 21:00 and 08:59 are suppressed and the local times
20:59 and 09:00 are sent. -/
theorem remindDebt_quiet_hours (env : Env) (debt : Debt) (s : State) (b : User) (t : Time)
    (hb : env.GetUser debt.BorrowerID = some b)
    (hloc : (b.Timezone ≠ "" ∧ env.NowIn b.Timezone = some t)
      ∨ ((b.Timezone = "" ∨ env.NowIn b.Timezone = none) ∧ env.Now = t)) :
    (notifications (remindDebt env debt s).2.trace
        = notifications s.trace
          ++ [⟨b.TransportID, reminderText env debt, env.MarkAsPaidReaction, ""⟩]
      ↔ 9 ≤ t.Hour ∧ t.Hour < 21)
    ∧ (¬ (9 ≤ t.Hour ∧ t.Hour < 21) →
        notifications (remindDebt env debt s).2.trace = notifications s.trace)
    ∧ (remindDebt env debt s).2.debts = s.debts
    ∧ (remindDebt env debt s).1 = none
    ∧ (t ∈ [(⟨21, 0⟩ : Time), ⟨8, 59⟩] →
        notifications (remindDebt env debt s).2.trace = notifications s.trace)
    ∧ (t ∈ [(⟨20, 59⟩ : Time), ⟨9, 0⟩] →
        notifications (remindDebt env debt s).2.trace
          = notifications s.trace
            ++ [⟨b.TransportID, reminderText env debt, env.MarkAsPaidReaction, ""⟩]) := by
  have ht : timeAtBorrower env b = t := by
    unfold timeAtBorrower
    rcases hloc with ⟨hz, hn⟩ | ⟨hz | hn, hnow⟩
    · simp [hz, hn]
    · simp [hz, hnow]
    · by_cases hz : b.Timezone = ""
      · simp [hz, hnow]
      · simp [hz, hn, hnow]
  have hres := remindDebt_resolved env debt s b hb
  rw [ht] at hres
  have hsent : 9 ≤ t.Hour ∧ t.Hour < 21 →
      notifications (remindDebt env debt s).2.trace
        = notifications s.trace
          ++ [⟨b.TransportID, reminderText env debt, env.MarkAsPaidReaction, ""⟩] := by
    intro h
    rw [hres, if_pos h]
    simp [notifications, List.filterMap_append]
  have hquiet : ¬ (9 ≤ t.Hour ∧ t.Hour < 21) →
      notifications (remindDebt env debt s).2.trace = notifications s.trace := by
    intro h
    rw [hres, if_neg h]
    simp [notifications, List.filterMap_append]
  refine ⟨⟨?_, hsent⟩, hquiet, ?_, ?_, ?_, ?_⟩
  · intro h
    by_contra hn
    rw [hquiet hn] at h
    have := congrArg List.length h
    simp at this
  · rw [hres]; split <;> rfl
  · rw [hres]; split <;> rfl
  · intro hmem
    apply hquiet
    simp only [List.mem_cons, List.mem_singleton, List.not_mem_nil, or_false] at hmem
    rcases hmem with rfl | rfl <;> decide
  · intro hmem
    apply hsent
    simp only [List.mem_cons, List.mem_singleton, List.not_mem_nil, or_false] at hmem
    rcases hmem with rfl | rfl <;> decide

/-- C5 on borrowers with time zones.  At 23:00 on the system the borrower in
`Asia/Tokyo`, where it is 12:00, is reminded, and the borrower in
`America/Lima`, where it is 22:00, is not; at 12:00 on the system the borrower
in `Asia/Tokyo`, where it is 04:00, is not reminded, and the borrower whose
profile names no zone is. -/
theorem remindDebt_quiet_hours_witness :
    notifications (remindDebt sampleEveningEnv ⟨"z1", "bt", "l", "TZ1", "C1", "m9", 1000⟩
        sampleZoneState).2.trace
      = [⟨"TBT", reminderText sampleEveningEnv ⟨"z1", "bt", "l", "TZ1", "C1", "m9", 1000⟩,
          "money_mouth_face", ""⟩]
    ∧ notifications (remindDebt sampleEveningEnv ⟨"z3", "bl", "l", "TZ1", "C1", "m9", 1200⟩
        sampleZoneState).2.trace = []
    ∧ notifications (remindDebt sampleNoonEnv ⟨"z1", "bt", "l", "TZ1", "C1", "m9", 1000⟩
        sampleZoneState).2.trace = []
    ∧ notifications (remindDebt sampleNoonEnv ⟨"z5", "bn", "l", "TZ1", "C1", "m9", 1400⟩
        sampleZoneState).2.trace
      = [⟨"TBN", reminderText sampleNoonEnv ⟨"z5", "bn", "l", "TZ1", "C1", "m9", 1400⟩,
          "money_mouth_face", ""⟩] :=
  ⟨(remindDebt_quiet_hours sampleEveningEnv ⟨"z1", "bt", "l", "TZ1", "C1", "m9", 1000⟩
      sampleZoneState ⟨"bt", "Borrower Tokyo", "TBT", "Asia/Tokyo"⟩ ⟨12, 0⟩ (by decide)
      (Or.inl ⟨by decide, by decide⟩)).1.2 (by decide),
   (remindDebt_quiet_hours sampleEveningEnv ⟨"z3", "bl", "l", "TZ1", "C1", "m9", 1200⟩
      sampleZoneState ⟨"bl", "Borrower Lima", "TBL", "America/Lima"⟩ ⟨22, 0⟩ (by decide)
      (Or.inl ⟨by decide, by decide⟩)).2.1 (by decide),
   (remindDebt_quiet_hours sampleNoonEnv ⟨"z1", "bt", "l", "TZ1", "C1", "m9", 1000⟩
      sampleZoneState ⟨"bt", "Borrower Tokyo", "TBT", "Asia/Tokyo"⟩ ⟨4, 0⟩ (by decide)
      (Or.inl ⟨by decide, by decide⟩)).2.1 (by decide),
   (remindDebt_quiet_hours sampleNoonEnv ⟨"z5", "bn", "l", "TZ1", "C1", "m9", 1400⟩
      sampleZoneState ⟨"bn", "Borrower Nowhere", "TBN", ""⟩ ⟨12, 0⟩ (by decide)
      (Or.inr ⟨Or.inl rfl, rfl⟩)).1.2 (by decide)⟩

/-! ## Matching the order-id pattern -/

theorem exec_lits_append {α : Type} (r : Regex) (cap : Option (List Char))
    (k : List Char → Option (List Char) → Option α) :
    ∀ (m s : List Char), (Regex.lits m r).exec (m ++ s) cap k = r.exec s cap k := by
  intro m
  induction m with
  | nil => intro s; rfl
  | cons a m ih =>
    intro s
    have := ih s
    simpa [Regex.lits, Regex.exec] using this

theorem exec_lits_none {α : Type} (r : Regex) (cap : Option (List Char))
    (k : List Char → Option (List Char) → Option α) :
    ∀ (m s : List Char), ¬ m <+: s → (Regex.lits m r).exec s cap k = none := by
  intro m
  induction m with
  | nil => intro s h; exact absurd (List.nil_prefix) h
  | cons a m ih =>
    intro s h
    cases s with
    | nil => simp [Regex.lits, Regex.exec]
    | cons x xs =>
      by_cases hx : x = a
      · subst hx
        have h2 : ¬ m <+: xs := fun hp => h ((List.prefix_cons_inj x).mpr hp)
        have := ih xs h2
        simpa [Regex.lits, Regex.exec] using this
      · simp [Regex.lits, Regex.exec, hx]

/-- No character of a token is a delimiter. -/
theorem isDelim_of_isUpperDigit (c : Char) (h : isUpperDigit c = true) : isDelim c = false := by
  by_contra hd
  have hd2 : isDelim c = true := by simpa using hd
  simp only [isDelim, isSpaceClass, Bool.decide_or, Bool.or_eq_true, decide_eq_true_eq] at hd2
  rcases hd2 with (rfl | rfl | rfl | rfl | rfl) | rfl | rfl <;> exact absurd h (by decide)

/-- Lazy repetition over a token: when the continuation rejects every input
that starts with a character of the class and accepts the input behind the
token, the repetition takes the whole token. -/
theorem lazyLoop_token {α : Type} (p : Char → Bool) (k : List Char → Option α)
    (hk : ∀ x ys, p x = true → k (x :: ys) = none) (tl : List Char) (v : α)
    (hv : k tl = some v) :
    ∀ (t : List Char), t ≠ [] → (∀ x ∈ t, p x = true) →
      lazyLoop p k (t ++ tl) = some v := by
  intro t
  induction t with
  | nil => intro h; exact absurd rfl h
  | cons a t ih =>
    intro _ hall
    have ha : p a = true := hall a (List.mem_cons_self a t)
    cases t with
    | nil => simp [lazyLoop, ha, hv]
    | cons b t =>
      have hb : p b = true := hall b (by simp)
      have hrest := ih (by simp) (fun x hx => hall x (List.mem_cons_of_mem a hx))
      have hkb : k (b :: (t ++ tl)) = none := hk b _ hb
      simp only [List.cons_append] at hrest ⊢
      simp only [lazyLoop, ha, if_true, hkb]
      simpa [lazyLoop] using hrest

theorem find_of_exec (r : Regex) (s : List Char) (v : Option (List Char))
    (h : r.exec s none (fun _ cap => some cap) = some v) : r.find s = some v := by
  cases s with
  | nil => simpa [Regex.find] using h
  | cons c cs => simp [Regex.find, h]

theorem find_cons_of_none (r : Regex) (c : Char) (cs : List Char)
    (h : r.exec (c :: cs) none (fun _ cap => some cap) = none) :
    r.find (c :: cs) = r.find cs := by
  simp [Regex.find, h]

/-- Anchored match of the pattern on the marker, a token and a delimiter: the
group captures the whole token. -/
theorem groupFromMessageRe_exec_token (t : List Char) (c : Char) (rest : List Char)
    (hne : t ≠ []) (hall : ∀ x ∈ t, isUpperDigit x = true) (hc : isDelim c = true) :
    groupFromMessageRe.exec (marker ++ (t ++ c :: rest)) none (fun _ cap => some cap)
      = some (some t) := by
  unfold groupFromMessageRe
  rw [exec_lits_append]
  simp only [Regex.exec]
  apply lazyLoop_token isUpperDigit _ _ (c :: rest) (some t) _ t hne hall
  · intro x ys hx
    simp [isDelim_of_isUpperDigit x hx]
  · simp [hc]

/-- Leftmost search: when the marker does not occur in front of position
`pre.length`, the search finds the match that starts there. -/
theorem groupFromMessageRe_find_token (t : List Char) (c : Char) (rest : List Char)
    (hne : t ≠ []) (hall : ∀ x ∈ t, isUpperDigit x = true) (hc : isDelim c = true) :
    ∀ (pre : List Char),
      (∀ i, i < pre.length → ¬ marker <+: (pre ++ (marker ++ (t ++ c :: rest))).drop i) →
      groupFromMessageRe.find (pre ++ (marker ++ (t ++ c :: rest))) = some (some t) := by
  intro pre
  induction pre with
  | nil =>
    intro _
    exact find_of_exec _ _ _ (groupFromMessageRe_exec_token t c rest hne hall hc)
  | cons a pre ih =>
    intro hfirst
    have h0 : ¬ marker <+: (a :: pre) ++ (marker ++ (t ++ c :: rest)) := by
      simpa using hfirst 0 (by simp)
    have hnone : groupFromMessageRe.exec ((a :: pre) ++ (marker ++ (t ++ c :: rest))) none
        (fun _ cap => some cap) = none := by
      unfold groupFromMessageRe
      exact exec_lits_none _ _ _ _ _ h0
    rw [List.cons_append] at hnone ⊢
    rw [find_cons_of_none _ _ _ hnone]
    apply ih
    intro i hi
    have := hfirst (i + 1) (by simpa using hi)
    simpa using this

/-- C6: for every non-empty token `t` of uppercase letters and digits and every
text in which the first occurrence of the marker phrase `Wolt order ID ` is
followed by `t` and then by a whitespace character (of the class the pattern
calls whitespace) or a period, the pattern matches and the extracted id is the
whole token `t`. -/
theorem MatchToTarget_token (pre t rest : List Char) (c : Char)
    (hne : t ≠ []) (hall : ∀ x ∈ t, isUpperDigit x = true)
    (hc : isSpaceClass c = true ∨ c = '.')
    (hfirst : ∀ i, i < pre.length →
      ¬ marker <+: (pre ++ (marker ++ (t ++ c :: rest))).drop i) :
    MatchToTarget (String.mk (pre ++ (marker ++ (t ++ c :: rest)))) = .ok ⟨String.mk t⟩ := by
  have hd : isDelim c = true := by
    rcases hc with h | h
    · simp [isDelim, h]
    · simp [isDelim, h]
  have := groupFromMessageRe_find_token t c rest hne hall hd pre hfirst
  simp only [MatchToTarget, String.toList]
  rw [this]

/-- C6 on a reminder-like text: the id of `for Wolt order ID ABC123.` followed
by a line break is `ABC123`, not `A`. -/
theorem MatchToTarget_token_witness :
    MatchToTarget (String.mk ("for ".toList ++ (marker ++ ("ABC123".toList ++ '.' :: ['\n']))))
      = .ok ⟨"ABC123"⟩ :=
  MatchToTarget_token "for ".toList "ABC123".toList ['\n'] '.' (by decide) (by decide)
    (Or.inr rfl) (by decide)

/-! ## A token that ends the text -/

theorem lazyLoop_none {α : Type} (p : Char → Bool) (k : List Char → Option α)
    (hk : ∀ x ys, p x = true → k (x :: ys) = none) (hnil : k [] = none) :
    ∀ (t : List Char), (∀ x ∈ t, p x = true) → lazyLoop p k t = none := by
  intro t
  induction t with
  | nil => intro _; rfl
  | cons a t ih =>
    intro hall
    have ha : p a = true := hall a (List.mem_cons_self a t)
    have hrest := ih (fun x hx => hall x (List.mem_cons_of_mem a hx))
    cases t with
    | nil => simp [lazyLoop, ha, hnil]
    | cons b t =>
      have hkb : k (b :: t) = none := hk b t (hall b (by simp))
      simp only [lazyLoop, ha, if_true, hkb]
      simpa [lazyLoop] using hrest

theorem marker_eq :
    marker = ['W', 'o', 'l', 't', ' ', 'o', 'r', 'd', 'e', 'r', ' ', 'I', 'D', ' '] := by
  decide

/-- The pattern has no match inside a token. -/
theorem groupFromMessageRe_find_in_token :
    ∀ (t : List Char), (∀ x ∈ t, isUpperDigit x = true) → groupFromMessageRe.find t = none := by
  have hpre : ∀ (t : List Char), (∀ x ∈ t, isUpperDigit x = true) → ¬ marker <+: t := by
    intro t hall hp
    have hmem : ' ' ∈ t := hp.subset (by decide)
    exact absurd (hall ' ' hmem) (by decide)
  intro t
  induction t with
  | nil =>
    intro hall
    simp only [Regex.find]
    unfold groupFromMessageRe
    exact exec_lits_none _ _ _ _ _ (hpre [] hall)
  | cons a t ih =>
    intro hall
    have hnone : groupFromMessageRe.exec (a :: t) none (fun _ cap => some cap) = none := by
      unfold groupFromMessageRe
      exact exec_lits_none _ _ _ _ _ (hpre (a :: t) hall)
    rw [find_cons_of_none _ _ _ hnone]
    exact ih (fun x hx => hall x (List.mem_cons_of_mem a hx))

/-- A text made of the marker phrase and a token that runs to the end of the
text has no match: the class `[\s\.$]` asks for one more character. -/
theorem MatchToTarget_token_at_end (t : List Char) (hall : ∀ x ∈ t, isUpperDigit x = true) :
    MatchToTarget (String.mk (marker ++ t)) = .error Error.noMatchFound := by
  have hin := groupFromMessageRe_find_in_token t hall
  have h0 : groupFromMessageRe.exec (marker ++ t) none (fun _ cap => some cap) = none := by
    unfold groupFromMessageRe
    rw [exec_lits_append]
    simp only [Regex.exec]
    apply lazyLoop_none isUpperDigit _ _ _ t hall
    · intro x ys hx
      simp [isDelim_of_isUpperDigit x hx]
    · rfl
  have hfind : groupFromMessageRe.find (marker ++ t) = none := by
    rw [marker_eq] at h0 ⊢
    simp only [List.cons_append, List.nil_append] at h0 ⊢
    rw [find_cons_of_none _ _ _ h0]
    iterate 13
      rw [find_cons_of_none _ _ _
        (by simp [groupFromMessageRe, Regex.lits, marker_eq, Regex.exec])]
    exact hin
  simp only [MatchToTarget, String.toList]
  rw [hfind]

/-! ## The dispatcher always succeeds -/

theorem lazyLoop_some {α : Type} (p : Char → Bool) (k : List Char → Option α) (v : α) :
    ∀ (s : List Char), lazyLoop p k s = some v → ∃ rest, k rest = some v := by
  intro s
  induction s with
  | nil => intro h; simp [lazyLoop] at h
  | cons c cs ih =>
    intro h
    by_cases hp : p c = true
    · cases hk : k cs with
      | some r =>
        simp only [lazyLoop, hp, if_true, hk] at h
        exact ⟨cs, by rw [hk, h]⟩
      | none =>
        simp only [lazyLoop, hp, if_true, hk] at h
        exact ih h
    · simp [lazyLoop, hp] at h

/-- A result of the matcher is a result of its continuation. -/
theorem exec_some {α : Type} (v : α) :
    ∀ (r : Regex) (s : List Char) (cap : Option (List Char))
      (k : List Char → Option (List Char) → Option α),
      r.exec s cap k = some v → ∃ rest cap1, k rest cap1 = some v := by
  intro r
  induction r with
  | chr c =>
    intro s cap k h
    cases s with
    | nil => simp [Regex.exec] at h
    | cons x xs =>
      by_cases hx : x = c
      · simp only [Regex.exec, hx, if_true] at h; exact ⟨xs, cap, h⟩
      · simp [Regex.exec, hx] at h
  | cls p =>
    intro s cap k h
    cases s with
    | nil => simp [Regex.exec] at h
    | cons x xs =>
      by_cases hx : p x = true
      · simp only [Regex.exec, hx, if_true] at h; exact ⟨xs, cap, h⟩
      · simp [Regex.exec, hx] at h
  | lazyPlus p =>
    intro s cap k h
    obtain ⟨rest, hr⟩ := lazyLoop_some p _ v s h
    exact ⟨rest, cap, hr⟩
  | group r ih =>
    intro s cap k h
    obtain ⟨rest, _, hr⟩ := ih s cap _ h
    exact ⟨rest, _, hr⟩
  | seq a b iha ihb =>
    intro s cap k h
    obtain ⟨rest, cap1, hr⟩ := iha s cap _ h
    exact ihb rest cap1 k hr

/-- A match of the pattern always fills the group. -/
theorem groupFromMessageRe_find_group (s : List Char) :
    groupFromMessageRe.find s ≠ some none := by
  have hexec : ∀ (s : List Char),
      groupFromMessageRe.exec s none (fun _ cap => some cap) ≠ some none := by
    intro s h
    have hl : ∀ (m : List Char) (s : List Char) (cap : Option (List Char)),
        (Regex.lits m (Regex.seq (Regex.group (Regex.lazyPlus isUpperDigit))
          (Regex.cls isDelim))).exec s cap (fun _ cap => some cap) ≠ some none := by
      intro m
      induction m with
      | nil =>
        intro s cap h
        simp only [Regex.lits, List.foldr, Regex.exec] at h
        obtain ⟨rest, hr⟩ := lazyLoop_some _ _ _ s h
        cases rest with
        | nil => simp at hr
        | cons x xs =>
          by_cases hx : isDelim x = true
          · simp [hx] at hr
          · simp [hx] at hr
      | cons a m ih =>
        intro s cap h
        have h2 : (Regex.chr a).exec s cap
            (fun rest cap1 => (Regex.lits m (Regex.seq (Regex.group (Regex.lazyPlus isUpperDigit))
              (Regex.cls isDelim))).exec rest cap1 (fun _ cap => some cap)) = some none := h
        obtain ⟨rest, cap1, hr⟩ := exec_some _ _ _ _ _ h2
        exact ih rest cap1 hr
    exact hl marker s none h
  induction s with
  | nil => simpa [Regex.find] using hexec []
  | cons c cs ih =>
    intro h
    cases he : groupFromMessageRe.exec (c :: cs) none (fun _ cap => some cap) with
    | none => rw [find_cons_of_none _ _ _ he] at h; exact ih h
    | some v =>
      rw [find_of_exec _ _ _ he] at h
      cases h
      exact hexec _ he

/-- The only error of `MatchToTarget` is `NoMatchFoundError`. -/
theorem MatchToTarget_error (text : String) (e : Error)
    (h : MatchToTarget text = .error e) : e = Error.noMatchFound := by
  unfold MatchToTarget at h
  cases hf : groupFromMessageRe.find text.toList with
  | none => rw [hf] at h; cases h; rfl
  | some m =>
    cases m with
    | none => exact absurd hf (groupFromMessageRe_find_group _)
    | some id => rw [hf] at h; cases h

/-! ## Dispatcher: filter, result, host -/

/-- C7: a text that ends with the marker phrase followed by a token does not
match the pattern: on `Wolt order ID ABC123` the match reports no match, and a
host-cancel reaction of the host on a message of the service that ends with
the order id is ignored, the debts of the order staying in the store. -/
theorem MatchToTarget_end_of_string_no_match :
    MatchToTarget "Wolt order ID ABC123" = .error Error.noMatchFound
    ∧ MatchToTarget sampleAtEnd.MessageText = .error Error.noMatchFound
    ∧ HandleReactionAdded sampleEnv sampleAtEnd sampleState = (("", none), sampleState) :=
  ⟨rfl, rfl, rfl⟩

/-- C8: a reaction that is neither mark-paid nor host-cancel, or that is on a
message not authored by the service, is ignored without error: the result is
the empty string and no error, and the state of the collaborators, trace
included, is the one before the call (no store read, no store mutation, no
directory lookup, no notification). -/
theorem HandleReactionAdded_ignores_other_reactions (env : Env) (req : ReactionAddRequest)
    (s : State)
    (h : (req.Reaction ≠ env.MarkAsPaidReaction ∧ req.Reaction ≠ env.HostRemoveDebts)
      ∨ req.MessageUserID ≠ env.selfID) :
    HandleReactionAdded env req s = (("", none), s) := by
  unfold HandleReactionAdded
  by_cases hs : env.hasDebtStore = false
  · simp [hs]
  · rw [if_neg hs, if_pos h]

/-- C8 on a thumbs-up reaction on a message of the service. -/
theorem HandleReactionAdded_ignores_other_reactions_witness :
    HandleReactionAdded sampleEnv sampleThumbsUp sampleState = (("", none), sampleState) :=
  HandleReactionAdded_ignores_other_reactions sampleEnv sampleThumbsUp sampleState
    (Or.inl ⟨by decide, by decide⟩)

theorem hostRemoveDebts_result (env : Env) (req : ReactionAddRequest) (o : String)
    (s : State) : (hostRemoveDebts env req o s).1 = ("", none) := by
  unfold hostRemoveDebts
  split
  · rfl
  · split
    · rfl
    · split
      · rfl
      · split <;> rfl

/-- C9: for every reaction event, every state of the store, every directory
and every pattern of store failures, `HandleReactionAdded` returns the empty
string and no error. -/
theorem HandleReactionAdded_always_succeeds (env : Env) (req : ReactionAddRequest)
    (s : State) : (HandleReactionAdded env req s).1 = ("", none) := by
  unfold HandleReactionAdded
  split
  · rfl
  · split
    · rfl
    · cases hm : MatchToTarget req.MessageText with
      | error e =>
        have he := MatchToTarget_error _ _ hm
        subst he
        rfl
      | ok parsedID =>
        simp only []
        split
        · rfl
        · split
          · exact hostRemoveDebts_result env req parsedID.ID s
          · rfl

/-- C10: when the listing succeeds, `hostForOrderID` returns without error the
lender id of the first listed debt of the order, and the empty string when the
order has no debt; it makes the listing call and nothing else. -/
theorem hostForOrderID_first_lender (env : Env) (o : String) (s : State)
    (hlist : env.storeFails s.storeCalls = false) :
    (hostForOrderID env o s).1
        = (match debtsOfOrder o s.debts with
           | [] => ("", none)
           | d0 :: _ => (d0.LenderID, none))
    ∧ (debtsOfOrder o s.debts = [] → (hostForOrderID env o s).1 = ("", none))
    ∧ (hostForOrderID env o s).2.debts = s.debts
    ∧ (hostForOrderID env o s).2.trace = s.trace ++ [Effect.listDebts o true] := by
  cases hds : debtsOfOrder o s.debts with
  | nil => simp [hostForOrderID, ListDebtsForOrderID, hlist, hds]
  | cons d0 rest => simp [hostForOrderID, ListDebtsForOrderID, hlist, hds]

/-- C10 on the sample store: the host of `ABC123` is `l`, an unknown order has
no host. -/
theorem hostForOrderID_first_lender_witness :
    (hostForOrderID sampleEnv "ABC123" sampleState).1 = ("l", none)
    ∧ (hostForOrderID sampleEnv "NONE" sampleState).1 = ("", none) :=
  ⟨(hostForOrderID_first_lender sampleEnv "ABC123" sampleState rfl).1,
   (hostForOrderID_first_lender sampleEnv "NONE" sampleState rfl).2.1 (by decide)⟩

/-! ## Reminder worker: one round -/

theorem remindDebt_frame (env : Env) (d : Debt) (s : State) :
    (remindDebt env d s).2.debts = s.debts
    ∧ (remindDebt env d s).2.storeCalls = s.storeCalls
    ∧ notifications (remindDebt env d s).2.trace
        = notifications s.trace ++ (reminderFor env d).toList := by
  cases hb : env.GetUser d.BorrowerID with
  | none =>
    simp [remindDebt, GetUser_none env _ s hb, reminderFor, hb, notifications,
      List.filterMap_append]
  | some b =>
    rw [remindDebt_resolved env d s b hb, timeAtBorrower_eq]
    by_cases h : 9 ≤ (borrowerLocalTime env b).Hour ∧ (borrowerLocalTime env b).Hour < 21
    · simp [h, reminderFor, hb, notifications, List.filterMap_append]
    · simp only [if_neg h, reminderFor, hb]
      simp [notifications, List.filterMap_append]

theorem remindAll_frame (env : Env) :
    ∀ (ds : List Debt) (s : State),
      (remindAll env ds s).debts = s.debts
      ∧ (remindAll env ds s).storeCalls = s.storeCalls
      ∧ notifications (remindAll env ds s).trace
          = notifications s.trace ++ ds.filterMap (reminderFor env) := by
  intro ds
  induction ds with
  | nil => intro s; simp [remindAll]
  | cons d rest ih =>
    intro s
    obtain ⟨h1, h2, h3⟩ := remindDebt_frame env d s
    obtain ⟨i1, i2, i3⟩ := ih (remindDebt env d s).2
    refine ⟨by rw [remindAll, i1, h1], by rw [remindAll, i2, h2], ?_⟩
    rw [remindAll, i3, h3, List.filterMap_cons]
    cases reminderFor env d <;> simp

/-- C13: in the step relation of the worker, a deadline round terminates the
worker, and a tick round terminates it exactly when the listing succeeds and is
empty: a tick whose listing fails or whose listing is not empty leaves the
worker active, whatever the reminders do.  A tick that terminates on an empty
listing only makes the listing call: no notification, no removal. -/
theorem workerStep_terminates_iff (env : Env) (o : String) (s : State) :
    (workerStep env o WorkerEvent.deadline s).1 = WorkerStatus.terminated
    ∧ ((workerStep env o WorkerEvent.tick s).1 = WorkerStatus.terminated
        ↔ env.storeFails s.storeCalls = false ∧ debtsOfOrder o s.debts = [])
    ∧ ((workerStep env o WorkerEvent.tick s).1 = WorkerStatus.active
        ↔ env.storeFails s.storeCalls = true ∨ debtsOfOrder o s.debts ≠ [])
    ∧ ((workerStep env o WorkerEvent.tick s).1 = WorkerStatus.terminated →
        (workerStep env o WorkerEvent.tick s).2
          = { s with storeCalls := s.storeCalls + 1,
                     trace := s.trace ++ [Effect.listDebts o true] }
        ∧ notifications (workerStep env o WorkerEvent.tick s).2.trace = notifications s.trace
        ∧ (workerStep env o WorkerEvent.tick s).2.debts = s.debts) := by
  refine ⟨rfl, ?_⟩
  by_cases hf : env.storeFails s.storeCalls = true
  · simp [workerStep, ListDebtsForOrderID, hf]
  · cases hds : debtsOfOrder o s.debts with
    | nil =>
      simp [workerStep, ListDebtsForOrderID, hf, hds, notifications, List.filterMap_append]
    | cons d0 rest => simp [workerStep, ListDebtsForOrderID, hf, hds]

/-- C13 on the sample store: a tick for an order without debts terminates the
worker with the listing call only. -/
theorem workerStep_terminates_iff_witness :
    (workerStep sampleEnv "NONE" WorkerEvent.tick sampleState).2
      = { sampleState with storeCalls := 1, trace := [Effect.listDebts "NONE" true] } :=
  ((workerStep_terminates_iff sampleEnv "NONE" sampleState).2.2.2 (by decide)).1

/-- C14: at a tick whose listing succeeds, the reminders sent are exactly one
per listed debt whose borrower resolves and whose local hour (the hour in the
zone of the borrower's profile when that zone loads, the hour of the system
otherwise) is outside the quiet window, in listing order, each addressed to
that borrower's transport id; a debt whose borrower lookup fails contributes no
reminder and does not stop the reminders of the debts listed after it; no debt
is removed, and with a non-empty listing the worker stays active. -/
theorem workerStep_tick_reminders (env : Env) (o : String) (s : State)
    (hlist : env.storeFails s.storeCalls = false) :
    notifications (workerStep env o WorkerEvent.tick s).2.trace
        = notifications s.trace ++ (debtsOfOrder o s.debts).filterMap (reminderFor env)
    ∧ (workerStep env o WorkerEvent.tick s).2.debts = s.debts
    ∧ (debtsOfOrder o s.debts ≠ [] →
        (workerStep env o WorkerEvent.tick s).1 = WorkerStatus.active) := by
  cases hds : debtsOfOrder o s.debts with
  | nil =>
    simp [workerStep, ListDebtsForOrderID, hlist, hds, notifications, List.filterMap_append]
  | cons d0 rest =>
    obtain ⟨h1, _, h3⟩ := remindAll_frame env (d0 :: rest)
      { s with storeCalls := s.storeCalls + 1, trace := s.trace ++ [Effect.listDebts o true] }
    simp only [workerStep, ListDebtsForOrderID, hlist, hds, Bool.false_eq_true, if_false]
    refine ⟨?_, h1, fun _ => trivial⟩
    rw [h3]
    simp [notifications, List.filterMap_append]

/-- C14 on the order `TZ1`, whose second debt has an unknown borrower.  At
23:00 on the system only the borrower in `Asia/Tokyo` (12:00 there) is reminded.
At 12:00 on the system the borrower in `Asia/Tokyo` (04:00 there) is not
reminded, and the three borrowers listed after the unknown one are, in listing
order.  The debts stay. -/
theorem workerStep_tick_reminders_witness :
    notifications (workerStep sampleEveningEnv "TZ1" WorkerEvent.tick sampleZoneState).2.trace
        = [⟨"TBT", reminderText sampleEveningEnv ⟨"z1", "bt", "l", "TZ1", "C1", "m9", 1000⟩,
            "money_mouth_face", ""⟩]
    ∧ notifications (workerStep sampleNoonEnv "TZ1" WorkerEvent.tick sampleZoneState).2.trace
        = [⟨"TBL", reminderText sampleNoonEnv ⟨"z3", "bl", "l", "TZ1", "C1", "m9", 1200⟩,
            "money_mouth_face", ""⟩,
           ⟨"TBM", reminderText sampleNoonEnv ⟨"z4", "bm", "l", "TZ1", "C1", "m9", 1300⟩,
            "money_mouth_face", ""⟩,
           ⟨"TBN", reminderText sampleNoonEnv ⟨"z5", "bn", "l", "TZ1", "C1", "m9", 1400⟩,
            "money_mouth_face", ""⟩]
    ∧ (workerStep sampleNoonEnv "TZ1" WorkerEvent.tick sampleZoneState).2.debts
        = sampleZoneState.debts :=
  have h1 := workerStep_tick_reminders sampleEveningEnv "TZ1" sampleZoneState rfl
  have h2 := workerStep_tick_reminders sampleNoonEnv "TZ1" sampleZoneState rfl
  ⟨h1.1.trans rfl, h2.1.trans rfl, h2.2.1⟩

/-! ## Reminder worker: the deadline -/

/-- C11, as amended: when the deadline is the next event of the worker while the
order has debts and no store call fails, `DebtWorker` cancels the order with
the reason `timeout has been reached`: the worker terminates, every debt of the
order is removed (the other orders stay), and exactly one notification is
sent, whose text cites that reason. -/
theorem DebtWorker_deadline_cancels (env : Env) (o : String) (evs : List WorkerEvent)
    (s : State) (d0 : Debt) (rest : List Debt)
    (hstore : env.hasDebtStore = true)
    (hds : debtsOfOrder o s.debts = d0 :: rest)
    (hok : ∀ n, env.storeFails n = false) :
    (DebtWorker env o (WorkerEvent.deadline :: evs) s).1 = WorkerStatus.terminated
    ∧ (DebtWorker env o (WorkerEvent.deadline :: evs) s).2.debts
        = s.debts.filter (fun x => x.OrderID ≠ o)
    ∧ debtsOfOrder o (DebtWorker env o (WorkerEvent.deadline :: evs) s).2.debts = []
    ∧ ∃ n : Notification,
        notifications (DebtWorker env o (WorkerEvent.deadline :: evs) s).2.trace
          = notifications s.trace ++ [n]
        ∧ n.event = "I removed all debts for order ID " ++ o ++ " because "
            ++ "timeout has been reached"
        ∧ n.reaction = "" ∧ n.messageID = "" := by
  have hrem := removeAllDebtsForOrder_ok env o "timeout has been reached" s d0 rest hstore hds
    (fun i _ => hok _)
  have hrun : DebtWorker env o (WorkerEvent.deadline :: evs) s
      = (WorkerStatus.terminated,
          (removeAllDebtsForOrder env o "timeout has been reached" s).2) := by
    simp [DebtWorker, hstore, workerLoop, workerStep]
  rw [hrun, hrem]
  refine ⟨rfl, rfl, ?_, ⟨d0.LenderID, "I removed all debts for order ID " ++ o ++ " because "
    ++ "timeout has been reached", "", ""⟩, ?_, rfl, rfl, rfl⟩
  · simp [debtsOfOrder, List.filter_filter]
  · simp only [notifications_append, notifications_removes]
    simp [notifications]

/-- C11 on the sample order: the deadline terminates the worker, removes the
two debts of `ABC123` and sends one notification. -/
theorem DebtWorker_deadline_cancels_witness :
    (DebtWorker sampleEnv "ABC123" [WorkerEvent.deadline] sampleState).1
        = WorkerStatus.terminated
    ∧ debtsOfOrder "ABC123"
        (DebtWorker sampleEnv "ABC123" [WorkerEvent.deadline] sampleState).2.debts = []
    ∧ ∃ n : Notification,
        notifications (DebtWorker sampleEnv "ABC123" [WorkerEvent.deadline] sampleState).2.trace
          = notifications sampleState.trace ++ [n]
        ∧ n.event = "I removed all debts for order ID " ++ "ABC123" ++ " because "
            ++ "timeout has been reached"
        ∧ n.reaction = "" ∧ n.messageID = "" :=
  have h := DebtWorker_deadline_cancels sampleEnv "ABC123" [] sampleState
    ⟨"d1", "b1", "l", "ABC123", "C1", "m1", 1000⟩
    [⟨"d2", "b2", "l", "ABC123", "C1", "m1", 1500⟩] rfl (by decide) (fun _ => rfl)
  ⟨h.1, h.2.2.1, h.2.2.2⟩

set_option maxRecDepth 100000 in
/-- C11 as stated fails: on the sample order the deadline sends one
notification, and its text does not contain the phrase `timeout reached`. -/
theorem DebtWorker_deadline_reason_counterexample :
    (notifications
        (DebtWorker sampleEnv "ABC123" [WorkerEvent.deadline] sampleState).2.trace).length = 1
    ∧ ¬ (∃ n ∈ notifications
          (DebtWorker sampleEnv "ABC123" [WorkerEvent.deadline] sampleState).2.trace,
        "timeout reached".toList <:+: n.event.toList) := by
  decide

/-! ## Reminder worker: ticks before the deadline -/

/-- State after `n` tick rounds on an order that has debts, when no store call
fails: the rows of the store are the same and the loop goes on. -/
theorem workerLoop_ticks (env : Env) (o : String) (evs : List WorkerEvent)
    (hok : ∀ n, env.storeFails n = false) :
    ∀ (n : Nat) (s : State), debtsOfOrder o s.debts ≠ [] →
      ∃ s1 : State, s1.debts = s.debts
        ∧ workerLoop env o (List.replicate n WorkerEvent.tick ++ evs) s
            = workerLoop env o evs s1 := by
  intro n
  induction n with
  | zero => intro s _; exact ⟨s, rfl, by simp⟩
  | succ n ih =>
    intro s hne
    obtain ⟨d0, rest, hds⟩ : ∃ d0 rest, debtsOfOrder o s.debts = d0 :: rest := by
      cases h : debtsOfOrder o s.debts with
      | nil => exact absurd h hne
      | cons d0 rest => exact ⟨d0, rest, rfl⟩
    have hstep : workerStep env o WorkerEvent.tick s
        = (WorkerStatus.active, remindAll env (d0 :: rest)
            { s with storeCalls := s.storeCalls + 1,
                     trace := s.trace ++ [Effect.listDebts o true] }) := by
      simp [workerStep, ListDebtsForOrderID, hok, hds]
    have hdebts : (remindAll env (d0 :: rest)
        { s with storeCalls := s.storeCalls + 1,
                 trace := s.trace ++ [Effect.listDebts o true] }).debts = s.debts :=
      (remindAll_frame env (d0 :: rest) _).1
    obtain ⟨s1, h1, h2⟩ := ih (remindAll env (d0 :: rest)
        { s with storeCalls := s.storeCalls + 1,
                 trace := s.trace ++ [Effect.listDebts o true] }) (by rw [hdebts]; exact hne)
    refine ⟨s1, h1.trans hdebts, ?_⟩
    rw [List.replicate_succ, List.cons_append, workerLoop, hstep]
    exact h2

/-- Whatever number of ticks the worker receives before the deadline, on an
order that has debts and with no store call failing, the deadline terminates
the worker and listing the order afterwards returns the empty sequence. -/
theorem DebtWorker_ticks_then_deadline (env : Env) (o : String) (s : State)
    (d0 : Debt) (rest : List Debt) (n : Nat) (evs : List WorkerEvent)
    (hstore : env.hasDebtStore = true)
    (hds : debtsOfOrder o s.debts = d0 :: rest)
    (hok : ∀ n, env.storeFails n = false) :
    (DebtWorker env o (List.replicate n WorkerEvent.tick ++ WorkerEvent.deadline :: evs) s).1
        = WorkerStatus.terminated
    ∧ (ListDebtsForOrderID env o
        (DebtWorker env o
          (List.replicate n WorkerEvent.tick ++ WorkerEvent.deadline :: evs) s).2).1 = .ok [] := by
  have hne : debtsOfOrder o s.debts ≠ [] := by rw [hds]; simp
  obtain ⟨s1, h1, h2⟩ := workerLoop_ticks env o (WorkerEvent.deadline :: evs) hok n s hne
  have hds1 : debtsOfOrder o s1.debts = d0 :: rest := by rw [h1]; exact hds
  have hrem := removeAllDebtsForOrder_ok env o "timeout has been reached" s1 d0 rest hstore
    hds1 (fun i _ => hok _)
  have hrun : DebtWorker env o
      (List.replicate n WorkerEvent.tick ++ WorkerEvent.deadline :: evs) s
      = (WorkerStatus.terminated,
          (removeAllDebtsForOrder env o "timeout has been reached" s1).2) := by
    rw [DebtWorker]
    simp only [hstore, Bool.true_eq_false, if_false]
    rw [h2]
    simp [workerLoop, workerStep]
  rw [hrun, hrem]
  refine ⟨rfl, ?_⟩
  simp [ListDebtsForOrderID, hok, debtsOfOrder, List.filter_filter]

/-! ## Mark as paid: notifications -/

theorem markDebtAsPaidLoop_notifications (env : Env) (o u ch : String) :
    ∀ (ds : List Debt) (s : State),
      notifications (markDebtAsPaidLoop env o u ch ds s).2.trace =
        notifications s.trace ++
          (match ds.find? (resolvesTo env u) with
           | some d => if env.storeFails s.storeCalls then [] else paidNotifications env u ch d
           | none => []) := by
  intro ds
  induction ds with
  | nil => intro s; simp [markDebtAsPaidLoop]
  | cons d rest ih =>
    intro s
    cases hb : env.GetUser d.BorrowerID with
    | none =>
      have hr : resolvesTo env u d = false := by simp [resolvesTo, hb]
      have := ih (s.emit (Effect.getUser d.BorrowerID false))
      simpa [markDebtAsPaidLoop, GetUser_none env _ s hb, List.find?_cons, hr, notifications,
        List.filterMap_append] using this
    | some b =>
      by_cases ht : b.TransportID = u
      · have hr : resolvesTo env u d = true := by simp [resolvesTo, hb, ht]
        by_cases hf : env.storeFails s.storeCalls = true
        · simp [markDebtAsPaidLoop, GetUser_some env _ s b hb, List.find?_cons, hr, ht,
            RemoveDebtInOrderID, hf, notifications, List.filterMap_append]
        · cases hl : env.GetUser d.LenderID with
          | none =>
            simp [markDebtAsPaidLoop, GetUser_some env _ s b hb, List.find?_cons, hr, ht,
              RemoveDebtInOrderID, hf, GetUser_none env _ _ hl, notifications,
              List.filterMap_append, paidNotifications, hl]
          | some l =>
            simp [markDebtAsPaidLoop, GetUser_some env _ s b hb, List.find?_cons, hr, ht,
              RemoveDebtInOrderID, hf, GetUser_some env _ _ l hl, notifications,
              List.filterMap_append, paidNotifications, hl]
      · have hr : resolvesTo env u d = false := by simp [resolvesTo, hb, ht]
        have := ih (s.emit (Effect.getUser d.BorrowerID true))
        simpa [markDebtAsPaidLoop, GetUser_some env _ s b hb, List.find?_cons, hr, ht,
          notifications, List.filterMap_append] using this

/-- C15: for a mark-paid reaction that matches a debt (the first listed debt
whose borrower resolves to the reactor) and whose removal succeeds,
`markDebtAsPaid` sends exactly two notifications, in this order: the
confirmation to the borrower's transport id, then the paid notice, addressed to
the lender's transport id with no thread when the lender resolves, and
otherwise to the initial channel in the thread of the debt's message id. -/
theorem markDebtAsPaid_notifications (env : Env) (o u ch : String) (s : State) (d : Debt)
    (hstore : env.hasDebtStore = true)
    (hlist : env.storeFails s.storeCalls = false)
    (hfind : (debtsOfOrder o s.debts).find? (resolvesTo env u) = some d)
    (hrem : env.storeFails (s.storeCalls + 1) = false) :
    (markDebtAsPaid env o u ch s).1 = none
    ∧ notifications (markDebtAsPaid env o u ch s).2.trace
        = notifications s.trace ++
          [⟨u, "OK! I removed your debt for order " ++ d.OrderID, "", ""⟩,
           match env.GetUser d.LenderID with
           | some lender =>
             ⟨lender.TransportID,
               "<@" ++ u ++ "> marked himself as payed for order ID " ++ d.OrderID, "", ""⟩
           | none =>
             ⟨ch, "<@" ++ u ++ "> marked himself as payed for order ID " ++ d.OrderID,
               "", d.MessageID⟩]
    ∧ (∃ b, env.GetUser d.BorrowerID = some b ∧ b.TransportID = u) := by
  cases hds : debtsOfOrder o s.debts with
  | nil => rw [hds] at hfind; simp at hfind
  | cons d0 rest =>
    rw [hds] at hfind
    have hn := markDebtAsPaidLoop_notifications env o u ch (d0 :: rest)
      { s with storeCalls := s.storeCalls + 1, trace := s.trace ++ [Effect.listDebts o true] }
    have he := (markDebtAsPaidLoop_spec env o u ch (d0 :: rest)
      { s with storeCalls := s.storeCalls + 1, trace := s.trace ++ [Effect.listDebts o true] }).2
    rw [hfind] at hn he
    have hrun : markDebtAsPaid env o u ch s = markDebtAsPaidLoop env o u ch (d0 :: rest)
        { s with storeCalls := s.storeCalls + 1,
                 trace := s.trace ++ [Effect.listDebts o true] } := by
      simp [markDebtAsPaid, hstore, ListDebtsForOrderID, hlist, hds]
    rw [hrun]
    refine ⟨?_, ?_, ?_⟩
    · simpa [hrem] using he
    · rw [hn]
      simp [hrem, notifications, List.filterMap_append, paidNotifications]
    · have hres := List.find?_some hfind
      simp only [resolvesTo] at hres
      cases hb : env.GetUser d.BorrowerID with
      | none => rw [hb] at hres; simp at hres
      | some b => rw [hb] at hres; exact ⟨b, rfl, by simpa using hres⟩

/-- C15 on the sample order: `TB1` marks the debt `d1` as paid; the lender
resolves, so the paid notice goes to `TL`. -/
theorem markDebtAsPaid_notifications_witness :
    notifications (markDebtAsPaid sampleEnv "ABC123" "TB1" "C1" sampleState).2.trace
      = [⟨"TB1", "OK! I removed your debt for order " ++ "ABC123", "", ""⟩,
         ⟨"TL", "<@" ++ "TB1" ++ "> marked himself as payed for order ID " ++ "ABC123",
           "", ""⟩] :=
  (markDebtAsPaid_notifications sampleEnv "ABC123" "TB1" "C1" sampleState
    ⟨"d1", "b1", "l", "ABC123", "C1", "m1", 1000⟩ rfl rfl (by decide) rfl).2.1

/-! ## Creating debts: self-debts -/

/-- The debts `addDebts` hands to the store have a borrower other than the
lender when no other name of the users map belongs to the lender's user. -/
theorem addDebtsLoop_no_self_debt (env : Env) (freshID : Nat → String)
    (usersMap : String → Option User) (tr o lender m : String) (lenderUser : User)
    (hinj : ∀ name u, name ≠ lender → usersMap name = some u → u.ID ≠ lenderUser.ID) :
    ∀ (rates : List (String × Nat)) (s : State),
      (∀ d ∈ s.debts, d.BorrowerID ≠ d.LenderID) →
      ∀ d ∈ (addDebtsLoop env freshID usersMap tr o lender m lenderUser rates s).debts,
        d.BorrowerID ≠ d.LenderID := by
  intro rates
  induction rates with
  | nil => intro s hs; simpa [addDebtsLoop] using hs
  | cons r rest ih =>
    obtain ⟨name, amount⟩ := r
    intro s hs
    by_cases hn : name = lender
    · simpa [addDebtsLoop, hn] using ih s hs
    · cases hu : usersMap name with
      | none =>
        simp only [addDebtsLoop, hn, if_false, hu]
        exact ih _ (by simpa using hs)
      | some user =>
        simp only [addDebtsLoop, hn, if_false, hu]
        apply ih
        intro d hd
        by_cases hst : env.hasDebtStore = false
        · exact hs d (by simpa [createDebt, hst] using hd)
        · by_cases hf : env.storeFails s.storeCalls = true
          · exact hs d (by simpa [createDebt, hst, AdDebt, hf] using hd)
          · have hd2 : d ∈ s.debts ∨ d = NewDebt (freshID s.storeCalls) user.ID lenderUser.ID o
                tr m amount := by
              simpa [createDebt, hst, AdDebt, hf] using hd
            rcases hd2 with hd2 | hd2
            · exact hs d hd2
            · subst hd2
              exact hinj name user hn hu

/-- C16: on a users map in which a second participant name belongs to the
lender's user, `addDebts` hands to the store a debt whose borrower id equals its
lender id: the loop skips the lender by name only. -/
theorem addDebts_self_debt :
    (addDebts sampleEnv sampleFreshID sampleAliasUsers "C1" "ABC123" sampleRates "Rami" "m1"
        sampleEmptyState).2.debts
      = [⟨"debt-0", "u1", "u1", "ABC123", "C1", "m1", 1500⟩,
         ⟨"debt-1", "u2", "u1", "ABC123", "C1", "m1", 800⟩]
    ∧ ∃ d ∈ (addDebts sampleEnv sampleFreshID sampleAliasUsers "C1" "ABC123" sampleRates "Rami"
        "m1" sampleEmptyState).2.debts, d.BorrowerID = d.LenderID := by
  refine ⟨by decide, ⟨"debt-0", "u1", "u1", "ABC123", "C1", "m1", 1500⟩, by decide, rfl⟩

/-! ## Receiver of the cancellation notice -/

/-- C17: the cancellation notice of `removeAllDebtsForOrder` is addressed to the
lender id stored in the first listed debt, not to the transport id of the
lender: on the sample order the lender `l` has the transport id `TL`, and the
notice goes to `l`. -/
theorem removeAllDebtsForOrder_receiver :
    notifications (removeAllDebtsForOrder sampleEnv "ABC123"
        "the host requested to cancel debts tracking" sampleState).2.trace
      = [⟨"l", "I removed all debts for order ID " ++ "ABC123" ++ " because "
            ++ "the host requested to cancel debts tracking", "", ""⟩]
    ∧ sampleEnv.GetUser "l" = some ⟨"l", "Lender", "TL", ""⟩
    ∧ ¬ (∃ n ∈ notifications (removeAllDebtsForOrder sampleEnv "ABC123"
          "the host requested to cancel debts tracking" sampleState).2.trace,
        n.receiver = "TL") := by
  refine ⟨by decide, by decide, by decide⟩

/-! ## Errors of the ledger operations -/

theorem removeAllLoop_errors (env : Env) (o : String) :
    ∀ (ds : List Debt) (s : State),
      ∃ suf, (removeAllLoop env o ds s).2.trace = s.trace ++ suf
        ∧ ((removeAllLoop env o ds s).1 ≠ none ↔ ∃ e ∈ suf, storeFailure e = true) := by
  intro ds
  induction ds with
  | nil => intro s; exact ⟨[], by simp [removeAllLoop]⟩
  | cons d rest ih =>
    intro s
    by_cases hf : env.storeFails s.storeCalls = true
    · exact ⟨[Effect.removeDebt o d.ID false],
        by simp [removeAllLoop, RemoveDebtInOrderID, hf, storeFailure]⟩
    · obtain ⟨suf, h1, h2⟩ := ih
        { debts := s.debts.filter fun x => ¬ (x.OrderID = o ∧ x.ID = d.ID),
          storeCalls := s.storeCalls + 1,
          trace := s.trace ++ [Effect.removeDebt o d.ID true] }
      refine ⟨Effect.removeDebt o d.ID true :: suf, ?_, ?_⟩
      · simpa [removeAllLoop, RemoveDebtInOrderID, hf] using h1
      · simpa [removeAllLoop, RemoveDebtInOrderID, hf, storeFailure] using h2

theorem markDebtAsPaidLoop_errors (env : Env) (o u ch : String) :
    ∀ (ds : List Debt) (s : State),
      ∃ suf, (markDebtAsPaidLoop env o u ch ds s).2.trace = s.trace ++ suf
        ∧ ((markDebtAsPaidLoop env o u ch ds s).1 ≠ none
            ↔ ∃ e ∈ suf, storeFailure e = true) := by
  intro ds
  induction ds with
  | nil => intro s; exact ⟨[], by simp [markDebtAsPaidLoop]⟩
  | cons d rest ih =>
    intro s
    cases hb : env.GetUser d.BorrowerID with
    | none =>
      obtain ⟨suf, h1, h2⟩ := ih (s.emit (Effect.getUser d.BorrowerID false))
      refine ⟨Effect.getUser d.BorrowerID false :: suf, ?_, ?_⟩
      · simpa [markDebtAsPaidLoop, GetUser_none env _ s hb] using h1
      · simpa [markDebtAsPaidLoop, GetUser_none env _ s hb, storeFailure] using h2
    | some b =>
      by_cases ht : b.TransportID = u
      · by_cases hf : env.storeFails s.storeCalls = true
        · exact ⟨[Effect.getUser d.BorrowerID true, Effect.removeDebt o d.ID false],
            by simp [markDebtAsPaidLoop, GetUser_some env _ s b hb, ht, RemoveDebtInOrderID, hf,
              storeFailure]⟩
        · cases hl : env.GetUser d.LenderID with
          | none =>
            exact ⟨[Effect.getUser d.BorrowerID true, Effect.removeDebt o d.ID true,
                Effect.inform ⟨u, "OK! I removed your debt for order " ++ d.OrderID, "", ""⟩,
                Effect.getUser d.LenderID false,
                Effect.inform ⟨ch, "<@" ++ u ++ "> marked himself as payed for order ID "
                  ++ d.OrderID, "", d.MessageID⟩],
              by simp [markDebtAsPaidLoop, GetUser_some env _ s b hb, ht, RemoveDebtInOrderID,
                hf, GetUser_none env _ _ hl, storeFailure]⟩
          | some l =>
            exact ⟨[Effect.getUser d.BorrowerID true, Effect.removeDebt o d.ID true,
                Effect.inform ⟨u, "OK! I removed your debt for order " ++ d.OrderID, "", ""⟩,
                Effect.getUser d.LenderID true,
                Effect.inform ⟨l.TransportID, "<@" ++ u
                  ++ "> marked himself as payed for order ID " ++ d.OrderID, "", ""⟩],
              by simp [markDebtAsPaidLoop, GetUser_some env _ s b hb, ht, RemoveDebtInOrderID,
                hf, GetUser_some env _ _ l hl, storeFailure]⟩
      · obtain ⟨suf, h1, h2⟩ := ih (s.emit (Effect.getUser d.BorrowerID true))
        refine ⟨Effect.getUser d.BorrowerID true :: suf, ?_, ?_⟩
        · simpa [markDebtAsPaidLoop, GetUser_some env _ s b hb, ht] using h1
        · simpa [markDebtAsPaidLoop, GetUser_some env _ s b hb, ht, storeFailure] using h2

theorem removeAllDebtsForOrder_errors (env : Env) (o reason : String) (s : State) :
    ∃ suf, (removeAllDebtsForOrder env o reason s).2.trace = s.trace ++ suf
      ∧ ((removeAllDebtsForOrder env o reason s).1 ≠ none
          ↔ ∃ e ∈ suf, storeFailure e = true) := by
  by_cases hs : env.hasDebtStore = false
  · exact ⟨[], by simp [removeAllDebtsForOrder, hs]⟩
  by_cases hf : env.storeFails s.storeCalls = true
  · exact ⟨[Effect.listDebts o false],
      by simp [removeAllDebtsForOrder, hs, ListDebtsForOrderID, hf, storeFailure]⟩
  cases hds : debtsOfOrder o s.debts with
  | nil =>
    exact ⟨[Effect.listDebts o true],
      by simp [removeAllDebtsForOrder, hs, ListDebtsForOrderID, hf, hds, storeFailure]⟩
  | cons d0 rest =>
    obtain ⟨suf, h1, h2⟩ := removeAllLoop_errors env o (d0 :: rest)
      { s with storeCalls := s.storeCalls + 1, trace := s.trace ++ [Effect.listDebts o true] }
    cases hl : removeAllLoop env o (d0 :: rest)
      { s with storeCalls := s.storeCalls + 1,
               trace := s.trace ++ [Effect.listDebts o true] } with
    | mk err s2 =>
      rw [hl] at h1 h2
      cases err with
      | some e =>
        refine ⟨Effect.listDebts o true :: suf, ?_, ?_⟩
        · simpa [removeAllDebtsForOrder, hs, ListDebtsForOrderID, hf, hds, hl] using h1
        · simpa [removeAllDebtsForOrder, hs, ListDebtsForOrderID, hf, hds, hl, storeFailure]
            using h2
      | none =>
        refine ⟨Effect.listDebts o true :: (suf ++ [Effect.inform ⟨d0.LenderID,
          "I removed all debts for order ID " ++ o ++ " because " ++ reason, "", ""⟩]), ?_, ?_⟩
        · simp only [] at h1
          simp [removeAllDebtsForOrder, hs, ListDebtsForOrderID, hf, hds, hl, h1]
        · have h3 : ¬ ∃ e ∈ suf, storeFailure e = true := by simpa using h2
          have hres : removeAllDebtsForOrder env o reason s
              = (none, informEvent d0.LenderID
                  ("I removed all debts for order ID " ++ o ++ " because " ++ reason) "" "" s2) := by
            simp [removeAllDebtsForOrder, hs, ListDebtsForOrderID, hf, hds, hl]
          rw [hres]
          constructor
          · intro h; exact absurd rfl h
          · rintro ⟨e, he, hfail⟩
            simp only [List.mem_cons, List.mem_append, List.mem_singleton, List.not_mem_nil,
              or_false] at he
            rcases he with rfl | he | rfl
            · simp [storeFailure] at hfail
            · exact absurd ⟨e, he, hfail⟩ h3
            · simp [storeFailure] at hfail

/-- C18: each ledger operation returns an error if and only if one of the
calls it makes on the debt store fails: the trace grows by the calls of the
operation, and the result is an error exactly when one of these calls is a
failed store call.  A failed store call is thus never swallowed, and a failed
directory lookup alone gives no error. -/
theorem ledger_error_iff_store_failure (env : Env) (freshID : Nat → String)
    (amount : Nat) (tr o m reason u ch : String) (borrowerUser lenderUser : User)
    (s : State) :
    (∃ suf, (createDebt env freshID amount tr o m borrowerUser lenderUser s).2.trace
          = s.trace ++ suf
        ∧ ((createDebt env freshID amount tr o m borrowerUser lenderUser s).1 ≠ none
            ↔ ∃ e ∈ suf, storeFailure e = true))
    ∧ (∃ suf, (hostForOrderID env o s).2.trace = s.trace ++ suf
        ∧ ((hostForOrderID env o s).1.2 ≠ none ↔ ∃ e ∈ suf, storeFailure e = true))
    ∧ (∃ suf, (removeAllDebtsForOrder env o reason s).2.trace = s.trace ++ suf
        ∧ ((removeAllDebtsForOrder env o reason s).1 ≠ none
            ↔ ∃ e ∈ suf, storeFailure e = true))
    ∧ (∃ suf, (markDebtAsPaid env o u ch s).2.trace = s.trace ++ suf
        ∧ ((markDebtAsPaid env o u ch s).1 ≠ none ↔ ∃ e ∈ suf, storeFailure e = true)) := by
  refine ⟨?_, ?_, removeAllDebtsForOrder_errors env o reason s, ?_⟩
  · by_cases hs : env.hasDebtStore = false
    · exact ⟨[], by simp [createDebt, hs]⟩
    by_cases hf : env.storeFails s.storeCalls = true
    · exact ⟨[Effect.addDebt (NewDebt (freshID s.storeCalls) borrowerUser.ID lenderUser.ID o
          tr m amount) false],
        by simp [createDebt, hs, AdDebt, hf, storeFailure]⟩
    · exact ⟨[Effect.addDebt (NewDebt (freshID s.storeCalls) borrowerUser.ID lenderUser.ID o
          tr m amount) true],
        by simp [createDebt, hs, AdDebt, hf, storeFailure]⟩
  · by_cases hf : env.storeFails s.storeCalls = true
    · exact ⟨[Effect.listDebts o false],
        by simp [hostForOrderID, ListDebtsForOrderID, hf, storeFailure]⟩
    · cases hds : debtsOfOrder o s.debts with
      | nil =>
        exact ⟨[Effect.listDebts o true],
          by simp [hostForOrderID, ListDebtsForOrderID, hf, hds, storeFailure]⟩
      | cons d0 rest =>
        exact ⟨[Effect.listDebts o true],
          by simp [hostForOrderID, ListDebtsForOrderID, hf, hds, storeFailure]⟩
  · by_cases hs : env.hasDebtStore = false
    · exact ⟨[], by simp [markDebtAsPaid, hs]⟩
    by_cases hf : env.storeFails s.storeCalls = true
    · exact ⟨[Effect.listDebts o false],
        by simp [markDebtAsPaid, hs, ListDebtsForOrderID, hf, storeFailure]⟩
    cases hds : debtsOfOrder o s.debts with
    | nil =>
      exact ⟨[Effect.listDebts o true],
        by simp [markDebtAsPaid, hs, ListDebtsForOrderID, hf, hds, storeFailure]⟩
    | cons d0 rest =>
      obtain ⟨suf, h1, h2⟩ := markDebtAsPaidLoop_errors env o u ch (d0 :: rest)
        { s with storeCalls := s.storeCalls + 1, trace := s.trace ++ [Effect.listDebts o true] }
      refine ⟨Effect.listDebts o true :: suf, ?_, ?_⟩
      · simpa [markDebtAsPaid, hs, ListDebtsForOrderID, hf, hds] using h1
      · simpa [markDebtAsPaid, hs, ListDebtsForOrderID, hf, hds, storeFailure] using h2

/-! ## Cancelling an order: a removal fails -/

/-- The loop of `removeAllDebtsForOrder` on debts whose removals succeed,
followed by further debts. -/
theorem removeAllLoop_append (env : Env) (o : String) (rest : List Debt) :
    ∀ (pre : List Debt) (s : State),
      (∀ i, i < pre.length → env.storeFails (s.storeCalls + i) = false) →
      removeAllLoop env o (pre ++ rest) s =
        removeAllLoop env o rest
          { debts := s.debts.filter (fun x => ¬ (x.OrderID = o ∧ x.ID ∈ pre.map Debt.ID)),
            storeCalls := s.storeCalls + pre.length,
            trace := s.trace ++ pre.map (fun d => Effect.removeDebt o d.ID true) } := by
  intro pre
  induction pre with
  | nil => intro s _; simp
  | cons d pre ih =>
    intro s hok
    have h0 : env.storeFails s.storeCalls = false := by
      simpa using hok 0 (by simp)
    have hrest : ∀ i, i < pre.length → env.storeFails (s.storeCalls + 1 + i) = false := by
      intro i hi
      have := hok (i + 1) (by simpa using hi)
      simpa [Nat.add_assoc, Nat.add_comm 1 i] using this
    have hstep := ih
      { debts := s.debts.filter fun x => ¬ (x.OrderID = o ∧ x.ID = d.ID),
        storeCalls := s.storeCalls + 1,
        trace := s.trace ++ [Effect.removeDebt o d.ID true] } hrest
    simp only [List.cons_append, removeAllLoop, RemoveDebtInOrderID, h0, Bool.false_eq_true,
      if_false, hstep]
    have hst : ({ debts := (s.debts.filter fun x => ¬ (x.OrderID = o ∧ x.ID = d.ID)).filter
                    (fun x => ¬ (x.OrderID = o ∧ x.ID ∈ pre.map Debt.ID)),
                  storeCalls := s.storeCalls + 1 + pre.length,
                  trace := s.trace ++ [Effect.removeDebt o d.ID true]
                    ++ pre.map (fun d => Effect.removeDebt o d.ID true) } : State)
        = { debts := s.debts.filter
              (fun x => ¬ (x.OrderID = o ∧ x.ID ∈ (d :: pre).map Debt.ID)),
            storeCalls := s.storeCalls + (d :: pre).length,
            trace := s.trace ++ (d :: pre).map (fun d => Effect.removeDebt o d.ID true) } := by
      simp only [List.filter_filter, List.map_cons, List.length_cons, List.append_assoc,
        List.singleton_append, State.mk.injEq]
      refine ⟨?_, by omega, trivial⟩
      apply List.filter_congr
      intro x _
      by_cases h1 : x.OrderID = o <;> by_cases h2 : x.ID = d.ID <;> simp [h1, h2]
    rw [← hst]
    exact hstep

/-- Removing by id the debts `pre` of an order with unique ids removes the
debts `pre` and nothing else. -/
theorem filter_ids_eq_filter_mem (o : String) (rows pre : List Debt)
    (huniq : uniqueIDs o rows) (hsub : ∀ x ∈ pre, x ∈ debtsOfOrder o rows) :
    rows.filter (fun x => ¬ (x.OrderID = o ∧ x.ID ∈ pre.map Debt.ID))
      = rows.filter (fun x => x ∉ pre) := by
  apply List.filter_congr
  intro x hx
  have hiff : (x.OrderID = o ∧ x.ID ∈ pre.map Debt.ID) ↔ x ∈ pre := by
    constructor
    · rintro ⟨ho, hid⟩
      obtain ⟨y, hy, hyid⟩ := List.mem_map.mp hid
      have hxl : x ∈ debtsOfOrder o rows := List.mem_filter.mpr ⟨hx, by simpa using ho⟩
      have := List.inj_on_of_nodup_map huniq (hsub y hy) hxl hyid
      rw [← this]; exact hy
    · intro hp
      have hxl := hsub x hp
      have ho : x.OrderID = o := by simpa using (List.mem_filter.mp hxl).2
      exact ⟨ho, List.mem_map.mpr ⟨x, hp, rfl⟩⟩
  by_cases h : x ∈ pre
  · simp [h, hiff.mpr h]
  · have h2 : ¬ (x.OrderID = o ∧ x.ID ∈ pre.map Debt.ID) := fun hh => h (hiff.mp hh)
    have h3 : decide (¬ (x.OrderID = o ∧ x.ID ∈ pre.map Debt.ID)) = true := decide_eq_true h2
    have h4 : decide (x ∉ pre) = true := decide_eq_true h
    rw [h3, h4]

/-- C20: `removeAllDebtsForOrder` is not atomic.  When the order lists the
debts `pre ++ dk :: post` and the removal of `dk` is the first store call to
fail, the operation returns the error of the removal and sends no
notification; the debts `pre` have been removed from the store, and nothing
else: the order still lists `dk :: post`. -/
theorem removeAllDebtsForOrder_first_failure (env : Env) (o reason : String) (s : State)
    (pre : List Debt) (dk : Debt) (post : List Debt)
    (hstore : env.hasDebtStore = true)
    (huniq : uniqueIDs o s.debts)
    (hds : debtsOfOrder o s.debts = pre ++ dk :: post)
    (hlist : env.storeFails s.storeCalls = false)
    (hpre : ∀ i, i < pre.length → env.storeFails (s.storeCalls + 1 + i) = false)
    (hk : env.storeFails (s.storeCalls + 1 + pre.length) = true) :
    (removeAllDebtsForOrder env o reason s).1 = some (Error.wrap "remove debt" Error.store)
    ∧ (removeAllDebtsForOrder env o reason s).2.trace
        = s.trace ++ [Effect.listDebts o true]
          ++ pre.map (fun d => Effect.removeDebt o d.ID true)
          ++ [Effect.removeDebt o dk.ID false]
    ∧ notifications (removeAllDebtsForOrder env o reason s).2.trace = notifications s.trace
    ∧ (removeAllDebtsForOrder env o reason s).2.debts = s.debts.filter (fun x => x ∉ pre)
    ∧ debtsOfOrder o (removeAllDebtsForOrder env o reason s).2.debts = dk :: post := by
  have hloop := removeAllLoop_append env o (dk :: post) pre
    { s with storeCalls := s.storeCalls + 1, trace := s.trace ++ [Effect.listDebts o true] }
    hpre
  have hsub : ∀ x ∈ pre, x ∈ debtsOfOrder o s.debts := by
    intro x hx; rw [hds]; exact List.mem_append_left _ hx
  have hfil := filter_ids_eq_filter_mem o s.debts pre huniq hsub
  have hres : removeAllDebtsForOrder env o reason s
      = (some (Error.wrap "remove debt" Error.store),
          { debts := s.debts.filter (fun x => x ∉ pre),
            storeCalls := s.storeCalls + 1 + pre.length + 1,
            trace := s.trace ++ [Effect.listDebts o true]
              ++ pre.map (fun d => Effect.removeDebt o d.ID true)
              ++ [Effect.removeDebt o dk.ID false] }) := by
    cases hpd : pre ++ dk :: post with
    | nil => simp at hpd
    | cons d0 rest =>
      rw [hpd] at hds
      simp only [removeAllDebtsForOrder, hstore, ListDebtsForOrderID, hlist, hds,
        Bool.true_eq_false, Bool.false_eq_true, if_false]
      rw [← hpd, hloop]
      simp only [removeAllLoop, RemoveDebtInOrderID, hk, if_true, hfil]
  rw [hres]
  refine ⟨rfl, rfl, ?_, rfl, ?_⟩
  · simp only [notifications_append, notifications_removes]
    simp [notifications]
  · have hnd : (pre ++ dk :: post).Nodup := by
      have := List.Nodup.of_map Debt.ID huniq
      rwa [hds] at this
    have hdisj := List.disjoint_of_nodup_append hnd
    have hcomm : debtsOfOrder o (s.debts.filter (fun x => x ∉ pre))
        = (debtsOfOrder o s.debts).filter (fun x => x ∉ pre) := by
      simp only [debtsOfOrder, List.filter_filter]
      apply List.filter_congr
      intro x _
      exact Bool.and_comm _ _
    show debtsOfOrder o (s.debts.filter (fun x => x ∉ pre)) = dk :: post
    rw [hcomm, hds, List.filter_append]
    have h1 : pre.filter (fun x => x ∉ pre) = [] := by
      apply List.filter_eq_nil_iff.mpr
      intro a ha
      simp [ha]
    have h2 : (dk :: post).filter (fun x => x ∉ pre) = dk :: post := by
      apply List.filter_eq_self.mpr
      intro a ha
      exact decide_eq_true (fun hp => hdisj hp ha)
    rw [h1, h2, List.nil_append]

/-- C20 on the sample order: the removal of the second debt fails, the first
debt is gone, the second stays, and no notification is sent. -/
theorem removeAllDebtsForOrder_first_failure_witness :
    (removeAllDebtsForOrder sampleFailingEnv "ABC123" "r" sampleState).1
        = some (Error.wrap "remove debt" Error.store)
    ∧ notifications (removeAllDebtsForOrder sampleFailingEnv "ABC123" "r" sampleState).2.trace
        = []
    ∧ debtsOfOrder "ABC123"
        (removeAllDebtsForOrder sampleFailingEnv "ABC123" "r" sampleState).2.debts
        = [⟨"d2", "b2", "l", "ABC123", "C1", "m1", 1500⟩] :=
  have h := removeAllDebtsForOrder_first_failure sampleFailingEnv "ABC123" "r" sampleState
    [⟨"d1", "b1", "l", "ABC123", "C1", "m1", 1000⟩]
    ⟨"d2", "b2", "l", "ABC123", "C1", "m1", 1500⟩ []
    rfl (by unfold uniqueIDs; decide) (by decide) (by decide) (by decide) (by decide)
  ⟨h.1, h.2.2.1, h.2.2.2.2⟩

/-! ## Round trip: reminder text and order-id pattern -/

theorem toDigitsCore_ne_W :
    ∀ (fuel n : Nat) (ds : List Char), (∀ c ∈ ds, c ≠ 'W') →
      ∀ c ∈ Nat.toDigitsCore 10 fuel n ds, c ≠ 'W' := by
  have hdigit : ∀ m, m < 10 → Nat.digitChar m ≠ 'W' := by decide
  intro fuel
  induction fuel with
  | zero => intro n ds hds; simpa [Nat.toDigitsCore] using hds
  | succ fuel ih =>
    intro n ds hds
    have hd : Nat.digitChar (n % 10) ≠ 'W' := hdigit _ (Nat.mod_lt _ (by decide))
    have hcons : ∀ c ∈ Nat.digitChar (n % 10) :: ds, c ≠ 'W' := by
      intro c hc
      rcases List.mem_cons.mp hc with rfl | hc
      · exact hd
      · exact hds c hc
    unfold Nat.toDigitsCore
    by_cases h0 : n / 10 = 0
    · simpa [h0] using hcons
    · simpa [h0] using ih (n / 10) _ hcons

/-- The decimal rendering of a number has no letter `W`. -/
theorem toString_nat_ne_W (n : Nat) : ∀ c ∈ (toString n).toList, c ≠ 'W' := by
  have : (toString n).toList = Nat.toDigits 10 n := rfl
  rw [this]
  exact toDigitsCore_ne_W _ _ _ (by simp)

theorem fmtAmount_ne_W (a : Nat) : ∀ c ∈ (fmtAmount a).toList, c ≠ 'W' := by
  intro c hc
  simp only [fmtAmount, String.toList, String.data_append, List.mem_append] at hc
  rcases hc with ((hc | hc) | hc) | hc
  · exact toString_nat_ne_W _ c hc
  · have : c ∈ ['.'] := hc
    simp only [List.mem_singleton] at this
    subst this; decide
  · exact toString_nat_ne_W _ c hc
  · exact toString_nat_ne_W _ c hc

/-- The marker does not start at a character other than `W`. -/
theorem marker_not_prefix_cons (c : Char) (l : List Char) (hc : c ≠ 'W') :
    ¬ marker <+: c :: l := by
  intro h
  rw [marker_eq] at h
  exact hc ((List.cons_prefix_cons.mp h).1).symm

/-- The marker does not start inside a text that does not contain it and is
followed by `>`. -/
theorem marker_not_prefix_append_gt (l tail : List Char) (hl : ¬ marker <+: l) :
    ¬ marker <+: l ++ '>' :: tail := by
  intro h
  by_cases hlen : marker.length ≤ l.length
  · exact hl (List.prefix_of_prefix_length_le h (List.prefix_append l _) hlen)
  · have hpre : l <+: marker :=
      List.prefix_of_prefix_length_le (List.prefix_append l _) h (by omega)
    obtain ⟨m, hm⟩ := hpre
    rw [← hm, List.prefix_append_right_inj] at h
    cases m with
    | nil =>
      have := congrArg List.length hm
      simp at this
      omega
    | cons x m =>
      have hx : x = '>' := (List.cons_prefix_cons.mp h).1
      have hmem : '>' ∈ marker := by
        rw [← hm, ← hx]; simp
      exact absurd hmem (by decide)

theorem noStart_cons (c : Char) (pre x : List Char)
    (hc : ¬ marker <+: c :: (pre ++ x))
    (h : ∀ i, i < pre.length → ¬ marker <+: (pre ++ x).drop i) :
    ∀ i, i < (c :: pre).length → ¬ marker <+: ((c :: pre) ++ x).drop i := by
  intro i hi
  cases i with
  | zero => simpa using hc
  | succ i =>
    have := h i (by simpa using hi)
    simpa using this

/-- The marker does not start inside a stretch of characters other than `W`. -/
theorem noStart_chars (x : List Char) :
    ∀ (a pre : List Char), (∀ c ∈ a, c ≠ 'W') →
      (∀ i, i < pre.length → ¬ marker <+: (pre ++ x).drop i) →
      ∀ i, i < (a ++ pre).length → ¬ marker <+: ((a ++ pre) ++ x).drop i := by
  intro a
  induction a with
  | nil => intro pre _ h; simpa using h
  | cons c a ih =>
    intro pre ha h
    have hrec := ih pre (fun c hc => ha c (List.mem_cons_of_mem _ hc)) h
    have := noStart_cons c (a ++ pre) x
      (marker_not_prefix_cons c _ (ha c (List.mem_cons_self c a))) hrec
    simpa using this

/-- The marker does not start inside a text that does not contain it and is
followed by `>`. -/
theorem noStart_lender (x tail : List Char)
    (ht : ∀ i, i < ('>' :: tail).length → ¬ marker <+: (('>' :: tail) ++ x).drop i) :
    ∀ (l : List Char), (∀ j, ¬ marker <+: l.drop j) →
      ∀ i, i < (l ++ '>' :: tail).length → ¬ marker <+: ((l ++ '>' :: tail) ++ x).drop i := by
  intro l
  induction l with
  | nil => intro _; simpa using ht
  | cons c l ih =>
    intro hl
    have hrec := ih (fun j => by simpa using hl (j + 1))
    have hhead : ¬ marker <+: c :: ((l ++ '>' :: tail) ++ x) := by
      have := marker_not_prefix_append_gt (c :: l) (tail ++ x) (by simpa using hl 0)
      simpa using this
    have := noStart_cons c (l ++ '>' :: tail) x hhead hrec
    simpa using this

/-- Characters of the reminder text: what precedes the marker phrase, the
marker phrase, the order id, the period and the rest. -/
theorem reminderText_toList (env : Env) (debt : Debt) :
    (reminderText env debt).toList =
      ("Reminder, you should pay ".toList ++ ((fmtAmount debt.Amount).toList
          ++ (" nis to <@".toList ++ (debt.LenderID.toList ++ '>' :: " for ".toList))))
        ++ (marker ++ (debt.OrderID.toList ++ '.' ::
            ('\n' :: ("If you paid, you can mark yourself as paid by adding :".toList
              ++ (env.MarkAsPaidReaction.toList
                ++ ": reaction to this message \\ the original rates message.".toList))))) := by
  have h1 : "> for Wolt order ID ".toList = '>' :: " for ".toList ++ marker := by decide
  simp only [reminderText, String.toList, String.data_append] at h1 ⊢
  rw [h1]
  simp only [List.append_assoc, List.cons_append, List.nil_append]

/-- C19: for every debt whose order id is a non-empty string of uppercase
letters and digits and whose lender id does not contain the marker phrase, the
reminder text of `remindDebt` matches the order-id pattern and the extracted id
is the debt's order id; a mark-paid reaction on the reminder message is
therefore handled as a mark-paid of the debt's own order. -/
theorem reminderText_roundtrip (env : Env) (debt : Debt)
    (hne : debt.OrderID.toList ≠ [])
    (hall : ∀ x ∈ debt.OrderID.toList, isUpperDigit x = true)
    (hl : ∀ j, ¬ marker <+: debt.LenderID.toList.drop j) :
    MatchToTarget (reminderText env debt) = .ok ⟨debt.OrderID⟩
    ∧ ∀ (req : ReactionAddRequest) (s : State),
        env.hasDebtStore = true → req.MessageUserID = env.selfID →
        req.Reaction = env.MarkAsPaidReaction → req.MessageText = reminderText env debt →
        HandleReactionAdded env req s
          = (("", none), (markDebtAsPaid env debt.OrderID req.FromUserID req.Channel s).2) := by
  have hmatch : MatchToTarget (reminderText env debt) = .ok ⟨debt.OrderID⟩ := by
    have hfirst := noStart_chars
      (marker ++ (debt.OrderID.toList ++ '.' ::
        ('\n' :: ("If you paid, you can mark yourself as paid by adding :".toList
          ++ (env.MarkAsPaidReaction.toList
            ++ ": reaction to this message \\ the original rates message.".toList)))))
      "Reminder, you should pay ".toList
      ((fmtAmount debt.Amount).toList
        ++ (" nis to <@".toList ++ (debt.LenderID.toList ++ '>' :: " for ".toList)))
      (by decide)
      (noStart_chars _ (fmtAmount debt.Amount).toList
        (" nis to <@".toList ++ (debt.LenderID.toList ++ '>' :: " for ".toList))
        (fmtAmount_ne_W debt.Amount)
        (noStart_chars _ " nis to <@".toList (debt.LenderID.toList ++ '>' :: " for ".toList)
          (by decide)
          (noStart_lender _ " for ".toList
            (by
              have := noStart_chars
                (marker ++ (debt.OrderID.toList ++ '.' ::
                  ('\n' :: ("If you paid, you can mark yourself as paid by adding :".toList
                    ++ (env.MarkAsPaidReaction.toList
                      ++ ": reaction to this message \\ the original rates message.".toList)))))
                ('>' :: " for ".toList) [] (by decide) (by simp)
              simpa using this)
            debt.LenderID.toList hl)))
    have hfind := groupFromMessageRe_find_token debt.OrderID.toList '.' _ hne hall (by decide)
      _ hfirst
    unfold MatchToTarget
    rw [reminderText_toList, hfind]
    rfl
  refine ⟨hmatch, ?_⟩
  intro req s hstore hself hreact htext
  simp [HandleReactionAdded, hstore, hself, hreact, htext, hmatch]

/-- C19 on the first debt of the sample order. -/
theorem reminderText_roundtrip_witness :
    MatchToTarget (reminderText sampleEnv ⟨"d1", "b1", "l", "ABC123", "C1", "m1", 1000⟩)
      = .ok ⟨"ABC123"⟩ :=
  (reminderText_roundtrip sampleEnv ⟨"d1", "b1", "l", "ABC123", "C1", "m1", 1000⟩
    (by decide) (by decide)
    (by
      intro j
      rcases j with _ | _ | j
      · decide
      · decide
      · simp [marker_eq])).1

end Bolt
